import Mathlib

/-!
Verification of the ALP serial link-layer adapter core: the `AlpFrame`
codec (parse / write / nibble encode / checksum) and the `AlpPort`
half-duplex session state machine, shallowly embedded from the Python
sources `alp_msg.py` and `alp.py`.  Byte buffers are `List Nat` with
values below 256; machine arithmetic is `Nat` with explicit `% 256`
where the source masks with `0xff`.
-/

/-! ## Codec constants, from `alp_msg.py` -/

def SOH : Nat := 0x01
def PI1 : Nat := 0x41
def PI2 : Nat := 0x32
def STX : Nat := 0x02
def ETX : Nat := 0x03

/-! ## AlpFrame codec, from `alp_msg.py` -/

/-- Embeds `AlpFrame.Decode`: decode a nibble-byte pair, failing when either
byte lies outside `0x30 .. 0x3f`. -/
def AlpFrame.Decode (b0 b1 : Nat) : Option Nat :=
  if b0 < 0x30 ∨ 0x3f < b0 ∨ b1 < 0x30 ∨ 0x3f < b1 then none
  else some ((b0 - 0x30) <<< 4 ||| (b1 - 0x30))

/-- Embeds `AlpFrame.Encode`: encode one byte as two nibble-bytes, the
source first masks the byte with `0xff`. -/
def AlpFrame.Encode (b : Nat) : List Nat :=
  [((b % 256) >>> 4) + 0x30, ((b % 256) &&& 0x0f) + 0x30]

/-- Wire encoding of a payload: each byte through `AlpFrame.Encode`, as
laid out by `AlpFrame.EncodeData` into the frame's data field. -/
def encData (p : List Nat) : List Nat := p.flatMap AlpFrame.Encode

/-- Checksum accumulated by `AlpFrame.EncodeData` over the encoded
data-field bytes: modulo-256 sum. -/
def chksumOf (l : List Nat) : Nat := (l.foldl (· + ·) 0) % 256

/-- Parity accumulated by `AlpFrame.EncodeData` over the encoded
data-field bytes: exclusive-or fold from 0. -/
def chkparOf (l : List Nat) : Nat := l.foldl (· ^^^ ·) 0

/-- Embeds `AlpFrame.Write`: preamble `SOH 'A' '2'`, `STX`, the encoded
data field, `ETX`, then the encoded checksum and parity of the data
field. -/
def AlpFrame.Write (p : List Nat) : List Nat :=
  [SOH, PI1, PI2, STX] ++ encData p ++ [ETX]
    ++ AlpFrame.Encode (chksumOf (encData p))
    ++ AlpFrame.Encode (chkparOf (encData p))

/-- Result of the data-field scanning loop inside `AlpFrame.Parse`:
`brk` is the `break` on an even-aligned `ETX` (recording the offset, the
masked checksum, the parity and the decoded bytes), `bad` is the early
return on an undecodable pair at offset `i`, and `exh` is loop
exhaustion without `ETX` (checksum left unmasked, decoded bytes kept). -/
inductive WalkRes where
  | bad (i : Nat)
  | brk (offset chksum chkpar : Nat) (acc : List Nat)
  | exh (chksum chkpar : Nat) (acc : List Nat)
deriving Repr, DecidableEq

/-- Embeds the `for i in range(offset, (dlen // 2) * 2 - 2, 2)` loop of
`AlpFrame.Parse`: walk the data field two bytes at a time, accumulating
checksum and parity over the raw wire bytes and decoding each pair.
The recursion is on a structurally decreasing fuel so that the kernel
can evaluate it; the loop exits as soon as `i < stop` fails and each
pass advances `i` by two, so any fuel of at least `stop - i` realises
the loop exactly (the fuel-exhaustion arm is unreachable then). -/
def parseWalkGo (data : List Nat) (stop : Nat) :
    Nat → Nat → Nat → Nat → List Nat → WalkRes
  | 0, _, chksum, chkpar, acc => .exh chksum chkpar acc
  | fuel + 1, i, chksum, chkpar, acc =>
      if i < stop then
        let b0 := data.getD i 0
        if b0 = ETX then .brk i (chksum % 256) chkpar acc
        else
          let b1 := data.getD (i + 1) 0
          match AlpFrame.Decode b0 b1 with
          | none => .bad i
          | some b =>
              parseWalkGo data stop fuel (i + 2) (chksum + b0 + b1)
                ((chkpar ^^^ b0) ^^^ b1) (acc ++ [b])
      else .exh chksum chkpar acc

/-- The data-field loop of `AlpFrame.Parse`, entered at offset `i` with
bound `stop`: `stop - i` fuel is always enough. -/
def parseWalk (data : List Nat) (i stop chksum chkpar : Nat) (acc : List Nat) :
    WalkRes :=
  parseWalkGo data stop (stop - i) i chksum chkpar acc

/-- Embeds the preamble scan of `AlpFrame.Parse`: the first index `i`
with `data[i] = SOH`, `data[i+1] = 'A'`, `data[i+2] = '2'`, searched for
`fuel` positions from `i`; `none` when no position matches. -/
def findStart (data : List Nat) (i fuel : Nat) : Option Nat :=
  match fuel with
  | 0 => none
  | fuel + 1 =>
      if data.getD i 0 = SOH ∧ data.getD (i + 1) 0 = PI1 ∧ data.getD (i + 2) 0 = PI2
      then some i
      else findStart data (i + 1) fuel

/-- Embeds the tail of `AlpFrame.Parse` after the data-field loop: the
`ETX`-and-room check, checksum-pair decoding and the final checksum
comparison. -/
def parseFinish (data : List Nat) (dlen start offset chksum chkpar : Nat)
    (acc : List Nat) : Nat × Bool × Option (List Nat) :=
  if data.getD offset 0 ≠ ETX ∨ dlen - 5 < offset then (start, false, none)
  else
    match AlpFrame.Decode (data.getD (offset + 1) 0) (data.getD (offset + 2) 0),
          AlpFrame.Decode (data.getD (offset + 3) 0) (data.getD (offset + 4) 0) with
    | none, _ => (offset, true, none)
    | some _, none => (offset, true, none)
    | some fcs, some fcp =>
        if fcs ≠ chksum ∨ fcp ≠ chkpar then (offset + 5, true, none)
        else (offset + 5, false, some acc)

/-- Embeds `AlpFrame.Parse`: returns `(consumed, nack, frame)` for a
receive buffer, exactly as the Python source.  On loop exhaustion the
offset stays at `start + 4` and the preallocated `snap_frame` bytearray
holds the decoded prefix padded with zero bytes. -/
def AlpFrame.Parse (data : List Nat) : Nat × Bool × Option (List Nat) :=
  let dlen := data.length
  if dlen < 9 then (0, false, none)
  else
    match findStart data 0 (dlen - 8) with
    | none => (dlen, false, none)
    | some start =>
        if data.getD (start + 3) 0 ≠ STX then (start + 4, true, none)
        else
          match parseWalk data (start + 4) ((dlen / 2) * 2 - 2) 0 0 [] with
          | .bad i => (i, true, none)
          | .brk offset chksum chkpar acc =>
              parseFinish data dlen start offset chksum chkpar acc
          | .exh chksum chkpar acc =>
              parseFinish data dlen start (start + 4) chksum chkpar
                (acc ++ List.replicate ((dlen - start - 4) / 2 - acc.length) 0)

/-! ## Session constants, from `alp.py` -/

def ACK : Nat := 0x06
def NAK : Nat := 0x15
def ENQ : Nat := 0x05
def EOT : Nat := 0x04

def DIAGNOSTICS_INTERVAL : Int := 5000

def RESEND_LIMIT : Nat := 10
def RESEND_LIMIT_NAK : Nat := 5

def SESSION_IDLE : Nat := 0
def SESSION_ACTIVE_MASTER : Nat := 1
def SESSION_ACTIVE_CLIENT : Nat := 2
def SESSION_FINISHED : Nat := 3

def MESSAGE_STATE_NACKED : Nat := 3
def MESSAGE_STATE_NO_REPLY : Nat := 4

def RX_BUFFER_MAX_LEN : Nat := 1024

/-! ## AlpPort state, from `alp.py`

The serial port, timer source and alarm sink are external collaborators;
their observable effects are recorded in the trace fields `written`
(byte buffers passed to the port write), `faults_detected` and
`faults_over` (notifications passed upward).  The port is taken as open
throughout, as in every claim considered here.  Timestamps from
`time.time()` are modelled as integer milliseconds, making the source's
thresholds `4.5` s, `19.5` s and the 5 s diagnostic interval the exact
integers 4500, 19500 and 5000. -/

structure AlpPort where
  message_counter : Nat
  session_state : Nat
  downlink_buffer : List Nat
  downlink_retransmit_count : Nat
  latest_downlink_event_time : Int
  latest_uplink_event_time : Int
  active_faults : List String
  line_fault_over_msg_sent : Bool
  rx_buffer : List Nat
  written : List (List Nat)
  faults_detected : List String
  faults_over : List String
deriving Repr, DecidableEq

/-- State of a freshly constructed `AlpPort` at construction time `t`,
from `AlpPort.__init__`. -/
def AlpPort.init (t : Int) : AlpPort :=
  { message_counter := 0
    session_state := SESSION_IDLE
    downlink_buffer := []
    downlink_retransmit_count := 0
    latest_downlink_event_time := t
    latest_uplink_event_time := t
    active_faults := []
    line_fault_over_msg_sent := false
    rx_buffer := []
    written := []
    faults_detected := []
    faults_over := [] }

/-- Modelled from the spec: `PortBase.write` (not under `src/`) passes a
byte buffer to the external serial byte-stream sink; the buffer is
recorded on the `written` trace. -/
def AlpPort.write (st : AlpPort) (buf : List Nat) : AlpPort :=
  { st with written := st.written ++ [buf] }

/-- Modelled from the spec: `PortBase.consume_rx_buffer` (not under
`src/`) drops the first `n` bytes of the receive buffer. -/
def AlpPort.consume_rx_buffer (st : AlpPort) (n : Nat) : AlpPort :=
  { st with rx_buffer := st.rx_buffer.drop n }

/-- Modelled from the spec: `PortBase.clear_rx_buffer` (not under
`src/`) empties the receive buffer. -/
def AlpPort.clear_rx_buffer (st : AlpPort) : AlpPort :=
  { st with rx_buffer := [] }

/-- Modelled from the spec: `PortBase.send_fault_detected` (not under
`src/`) reports a fault upward; the tag is recorded on the
`faults_detected` trace. -/
def AlpPort.send_fault_detected (st : AlpPort) (tag : String) : AlpPort :=
  { st with faults_detected := st.faults_detected ++ [tag] }

/-- Modelled from the spec: `PortBase.send_fault_over` (not under
`src/`) reports a fault-over upward; the text is recorded on the
`faults_over` trace. -/
def AlpPort.send_fault_over (st : AlpPort) (txt : String) : AlpPort :=
  { st with faults_over := st.faults_over ++ [txt] }

/-- Embeds `AlpPort.session_is_active`. -/
def AlpPort.session_is_active (st : AlpPort) : Bool :=
  !(st.session_state == SESSION_IDLE || st.session_state == SESSION_FINISHED)

/-- Embeds `AlpPort.session_begin`. -/
def AlpPort.session_begin (st : AlpPort) (state : Nat) : AlpPort :=
  { st with session_state := state, downlink_buffer := [] }

/-- Embeds `AlpPort.session_finish`. -/
def AlpPort.session_finish (st : AlpPort) : AlpPort :=
  { st with downlink_retransmit_count := 0
            downlink_buffer := []
            session_state := SESSION_FINISHED }

/-- Embeds `AlpPort.transmit_control_char`: begin a master session when
idle, stamp the downlink time, store the single byte in the downlink
slot and write it to the port. -/
def AlpPort.transmit_control_char (st : AlpPort) (now : Int) (char : Nat) : AlpPort :=
  let st := if st.session_is_active = false then st.session_begin SESSION_ACTIVE_MASTER else st
  let st := { st with latest_downlink_event_time := now, downlink_buffer := [char] }
  st.write [char]

/-- Embeds `AlpPort.send_ack`. -/
def AlpPort.send_ack (st : AlpPort) (now : Int) : AlpPort :=
  st.transmit_control_char now ACK

/-- Embeds `AlpPort.send_nak`. -/
def AlpPort.send_nak (st : AlpPort) (now : Int) : AlpPort :=
  st.transmit_control_char now NAK

/-- Embeds `AlpPort.send_enq`. -/
def AlpPort.send_enq (st : AlpPort) (now : Int) : AlpPort :=
  st.transmit_control_char now ENQ

/-- Embeds `AlpPort.send_eot`. -/
def AlpPort.send_eot (st : AlpPort) (now : Int) : AlpPort :=
  st.transmit_control_char now EOT

/-- Embeds `AlpPort.transmit` with the port open: `snap_bytes` stands
for `snap_msg.write()`, the serialization produced by the external SNAP
codec.  Begin a master session when inactive, frame the bytes, store
the frame in the downlink slot, write it and bump the message
counter. -/
def AlpPort.transmit (st : AlpPort) (now : Int) (snap_bytes : List Nat) : AlpPort :=
  let st := if st.session_is_active = false then st.session_begin SESSION_ACTIVE_MASTER else st
  let st := { st with downlink_buffer := AlpFrame.Write snap_bytes
                      latest_downlink_event_time := now }
  let st := st.write st.downlink_buffer
  { st with message_counter := st.message_counter + 1 }

/-- Embeds `AlpPort.re_transmit`: below the cause-dependent limit,
increment the retransmit count, stamp the downlink time and rewrite the
downlink slot; exactly at the limit, finish the session and raise
`linefault` (reporting it upward once); above the limit, do nothing. -/
def AlpPort.re_transmit (st : AlpPort) (now : Int) (message_state : Nat) : AlpPort :=
  let resend_limit := if message_state = MESSAGE_STATE_NACKED then RESEND_LIMIT_NAK else RESEND_LIMIT
  if st.downlink_retransmit_count < resend_limit then
    let st := { st with downlink_retransmit_count := st.downlink_retransmit_count + 1
                        latest_downlink_event_time := now }
    st.write st.downlink_buffer
  else if st.downlink_retransmit_count = resend_limit then
    let st := st.session_finish
    if "linefault" ∈ st.active_faults then st
    else
      let st := { st with active_faults := st.active_faults ++ ["linefault"] }
      st.send_fault_detected "linefault"
  else st

/-- Embeds `AlpPort.session_diagnostics` with the port open: during an
active session retransmit on 4.5 s (4500 ms) of downlink silence, otherwise force
the state to `IDLE` and poll with `ENQ` after 19.5 s (19500 ms) of
uplink silence. -/
def AlpPort.session_diagnostics (st : AlpPort) (now : Int) : AlpPort :=
  if st.session_is_active then
    if (4500 : Int) ≤ now - st.latest_downlink_event_time then
      st.re_transmit now MESSAGE_STATE_NO_REPLY
    else st
  else
    let st := { st with session_state := SESSION_IDLE }
    if (19500 : Int) ≤ now - st.latest_uplink_event_time then st.send_enq now else st

/-- Embeds `AlpPort.check_control_char`: inspect the first byte of the
buffer; on `ACK`/`EOT` finish the session, on `NAK` retransmit as
`NACKED`, on `ENQ` send `EOT` and finish; the flag reports whether a
control byte was seen. -/
def AlpPort.check_control_char (st : AlpPort) (now : Int) (data : List Nat) :
    Bool × AlpPort :=
  match data.head? with
  | none => (false, st)
  | some c =>
      if c = ACK then (true, st.session_finish)
      else if c = NAK then (true, st.re_transmit now MESSAGE_STATE_NACKED)
      else if c = EOT then (true, st.session_finish)
      else if c = ENQ then (true, (st.send_eot now).session_finish)
      else (false, st)

/-- Python truthiness of the `snap_frame` value inside `on_receive`:
both `None` and the empty bytearray are falsy, so a successfully parsed
frame with empty payload takes the `elif not snap_frame` branch. -/
def frameFalsy : Option (List Nat) → Bool
  | none => true
  | some l => l.isEmpty

/-- Embeds one iteration of the `while consumed and len(data)` loop of
`AlpPort.on_receive`.  `snap_empty` stands for the `empty` flag of
`SNAPMsg.Parse` (Modelled from the spec: the SNAP application-layer
codec is an external collaborator; `empty` marks a degenerate decode).
`data` is the local Python variable of the loop, refreshed from the
receive buffer only after a consume.  Returns the new port state, the
new `data`, the `consumed` count and the `valid_msg_parsed` flag. -/
def AlpPort.rxStep (st : AlpPort) (snap_empty : List Nat → Bool) (now : Int)
    (data : List Nat) (valid : Bool) : AlpPort × List Nat × Nat × Bool :=
  let cc := st.check_control_char now data
  let st1 := cc.2
  let consumed := if cc.1 then 1 else (AlpFrame.Parse data).1
  let nack := if cc.1 then false else (AlpFrame.Parse data).2.1
  let snap_frame := if cc.1 then none else (AlpFrame.Parse data).2.2
  let valid1 := if cc.1 then true else valid
  let st2 := if consumed ≠ 0 then st1.consume_rx_buffer consumed else st1
  let data2 := if consumed ≠ 0 then st2.rx_buffer else data
  if nack then (st2.send_nak now, data2, consumed, valid1)
  else if frameFalsy snap_frame then
    if consumed = 0 ∧ RX_BUFFER_MAX_LEN ≤ data2.length then
      (((st2.clear_rx_buffer).send_nak now).session_finish, data2, consumed, valid1)
    else (st2, data2, consumed, valid1)
  else
    let st3 := if st2.session_is_active = false then st2.session_begin SESSION_ACTIVE_CLIENT else st2
    let payload := snap_frame.getD []
    let valid2 := if snap_empty payload = false then true else valid1
    (st3.send_ack now, data2, consumed, valid2)

/-- Embeds the `while consumed and len(data)` loop of
`AlpPort.on_receive`, with explicit fuel; each continued iteration
consumes at least one byte, so `data.length + 1` fuel always
suffices. -/
def AlpPort.rxLoop (st : AlpPort) (snap_empty : List Nat → Bool) (now : Int)
    (fuel : Nat) (data : List Nat) (valid : Bool) : AlpPort × List Nat × Bool :=
  match fuel with
  | 0 => (st, data, valid)
  | fuel + 1 =>
      if data.length = 0 then (st, data, valid)
      else
        let r := st.rxStep snap_empty now data valid
        if r.2.2.1 = 0 then (r.1, r.2.1, r.2.2.2)
        else r.1.rxLoop snap_empty now fuel r.2.1 r.2.2.2

/-- Embeds the tail of `AlpPort.on_receive` after the loop: when at
least one valid message or control byte was seen, stamp the uplink
time, clear an active `linefault`, latch the one-shot
`line_fault_over_msg_sent` flag and emit the fault-over
notification. -/
def AlpPort.uplinkEpilogue (st : AlpPort) (now : Int) (valid : Bool) : AlpPort :=
  if valid then
    let st := { st with latest_uplink_event_time := now }
    if "linefault" ∈ st.active_faults ∨ st.line_fault_over_msg_sent = false then
      let st := if "linefault" ∈ st.active_faults then
                  { st with active_faults := st.active_faults.erase "linefault" }
                else st
      let st := if st.line_fault_over_msg_sent = false then
                  { st with line_fault_over_msg_sent := true }
                else st
      st.send_fault_over "linefault over"
    else st
  else st

/-- Embeds `AlpPort.on_receive` for one received chunk: the chunk is
appended to the receive buffer (Modelled from the spec: `PortBase`, not
under `src/`, accumulates ingress bytes in `RxBuffer` and hands the
buffer to `on_receive`), the loop runs, an emptied buffer finishes the
session, and the epilogue handles uplink liveness and `linefault`. -/
def AlpPort.on_receive (st : AlpPort) (snap_empty : List Nat → Bool) (now : Int)
    (chunk : List Nat) : AlpPort :=
  let st := { st with rx_buffer := st.rx_buffer ++ chunk }
  let data := st.rx_buffer
  let r := st.rxLoop snap_empty now (data.length + 1) data false
  let st := r.1
  let st := if r.2.1.length = 0 then st.session_finish else st
  st.uplinkEpilogue now r.2.2

/-- Repeated diagnostic ticks, `DIAGNOSTICS_INTERVAL` (5 s, i.e. 5000
ms) apart, starting 5 s after time `t`: the scenario of spec §8
item 7. -/
def AlpPort.runTicks (st : AlpPort) (t : Int) : Nat → AlpPort
  | 0 => st
  | k + 1 => (st.session_diagnostics (t + 5000)).runTicks (t + 5000) k

/-! ## Basic facts about `AlpFrame.Parse` -/

lemma parseFinish_excl (data : List Nat) (dlen start offset chksum chkpar : Nat)
    (acc : List Nat) :
    ((parseFinish data dlen start offset chksum chkpar acc).2.1 = true →
      (parseFinish data dlen start offset chksum chkpar acc).2.2 = none) ∧
    (∀ f, (parseFinish data dlen start offset chksum chkpar acc).2.2 = some f →
      (parseFinish data dlen start offset chksum chkpar acc).2.1 = false) := by
  unfold parseFinish
  split
  · simp
  · split
    · simp
    · simp
    · split <;> simp

lemma findStart_bound (data : List Nat) :
    ∀ fuel i s, findStart data i fuel = some s → i ≤ s ∧ s < i + fuel := by
  intro fuel
  induction fuel with
  | zero => intro i s h; simp [findStart] at h
  | succ n ih =>
      intro i s h
      unfold findStart at h
      split at h
      · simp only [Option.some.injEq] at h; omega
      · have := ih (i + 1) s h
        omega

lemma parseWalkGo_bounds (data : List Nat) (stop : Nat) :
    ∀ (fuel i chksum chkpar : Nat) (acc : List Nat),
      (∀ j, parseWalkGo data stop fuel i chksum chkpar acc = .bad j → i ≤ j ∧ j < stop) ∧
      (∀ o c p a, parseWalkGo data stop fuel i chksum chkpar acc = .brk o c p a →
        i ≤ o ∧ o < stop) := by
  intro fuel
  induction fuel with
  | zero =>
      intro i chksum chkpar acc
      constructor
      · intro j hj; cases hj
      · intro o c p a hb; cases hb
  | succ n ih =>
      intro i chksum chkpar acc
      unfold parseWalkGo
      dsimp only
      split
      next hlt =>
        split
        next hetx =>
          constructor
          · intro j hj; cases hj
          · intro o c p a hb
            cases hb
            exact ⟨Nat.le_refl _, hlt⟩
        next hetx =>
          split
          next hdec =>
            constructor
            · intro j hj
              cases hj
              exact ⟨Nat.le_refl _, hlt⟩
            · intro o c p a hb; cases hb
          next b hdec =>
            constructor
            · intro j hj
              have := (ih (i + 2) _ _ _).1 j hj
              omega
            · intro o c p a hb
              have := (ih (i + 2) _ _ _).2 o c p a hb
              omega
      next hge =>
        constructor
        · intro j hj; cases hj
        · intro o c p a hb; cases hb

lemma parseWalk_bounds (data : List Nat) (i stop chksum chkpar : Nat) (acc : List Nat) :
    (∀ j, parseWalk data i stop chksum chkpar acc = .bad j → i ≤ j ∧ j < stop) ∧
    (∀ o c p a, parseWalk data i stop chksum chkpar acc = .brk o c p a → i ≤ o ∧ o < stop) :=
  parseWalkGo_bounds data stop (stop - i) i chksum chkpar acc

lemma parseFinish_le (data : List Nat) (dlen start offset chksum chkpar : Nat)
    (acc : List Nat) (hs : start ≤ dlen) (hd : 9 ≤ dlen) :
    (parseFinish data dlen start offset chksum chkpar acc).1 ≤ dlen := by
  unfold parseFinish
  split
  · simpa using hs
  · rename_i hguard
    push_neg at hguard
    split
    · simp; omega
    · simp; omega
    · split <;> simp <;> omega

lemma parse_consumed_le (data : List Nat) :
    (AlpFrame.Parse data).1 ≤ data.length := by
  unfold AlpFrame.Parse
  dsimp only
  split
  · simp
  next hlen =>
    push_neg at hlen
    split
    · simp
    next start hfs =>
      have hsb := findStart_bound data _ 0 start hfs
      split
      next hstx =>
        simp
        omega
      next hstx =>
        split
        next i hbad =>
          have := (parseWalk_bounds data (start + 4) (data.length / 2 * 2 - 2) 0 0 []).1 i hbad
          simp
          omega
        next offset chksum chkpar acc hbrk =>
          exact parseFinish_le data _ start offset chksum chkpar acc (by omega) (by omega)
        next chksum chkpar acc hexh =>
          exact parseFinish_le data _ start (start + 4) chksum chkpar _ (by omega) (by omega)

/-- Iterated parsing of a single finite stream: repeatedly call
`AlpFrame.Parse` and drop the consumed bytes, stopping when nothing is
consumed; `fuel` bounds the number of calls. -/
def parseAll : Nat → List Nat → List Nat
  | 0, b => b
  | fuel + 1, b =>
      if (AlpFrame.Parse b).1 = 0 then b
      else parseAll fuel (b.drop (AlpFrame.Parse b).1)

lemma parseAll_reaches (fuel : Nat) :
    ∀ b : List Nat, b.length ≤ fuel →
      parseAll fuel b = [] ∨ (AlpFrame.Parse (parseAll fuel b)).1 = 0 := by
  induction fuel with
  | zero =>
      intro b hb
      have : b = [] := List.length_eq_zero.mp (Nat.le_zero.mp hb)
      simp [this, parseAll]
  | succ n ih =>
      intro b hb
      unfold parseAll
      split
      · rename_i h0
        exact Or.inr h0
      · rename_i h0
        apply ih
        have := parse_consumed_le b
        have hlen := List.length_drop (AlpFrame.Parse b).1 b
        omega

/-- Claim C8, amended: for every buffer `b` the consumed count returned
by `AlpFrame.Parse` satisfies `0 ≤ consumed ≤ len b`, and iterating
Parse on a finite stream, dropping consumed bytes after each call,
reaches within `len b` calls a state where either every byte has been
consumed or Parse returns `consumed = 0`, retaining the remainder while
it awaits further data. -/
theorem parse_consumes_monotonically :
    (∀ b : List Nat, (AlpFrame.Parse b).1 ≤ b.length) ∧
    (∀ (fuel : Nat) (b : List Nat), b.length ≤ fuel →
      parseAll fuel b = [] ∨ (AlpFrame.Parse (parseAll fuel b)).1 = 0) :=
  ⟨parse_consumed_le, parseAll_reaches⟩

/-- Witness for `parse_consumes_monotonically` at the 9-byte minimal
frame: iteration consumes the whole stream. -/
theorem parse_consumes_monotonically_witness :
    (AlpFrame.Parse (AlpFrame.Write [])).1 ≤ (AlpFrame.Write []).length ∧
    (parseAll 9 (AlpFrame.Write []) = [] ∨
      (AlpFrame.Parse (parseAll 9 (AlpFrame.Write []))).1 = 0) :=
  ⟨parse_consumes_monotonically.1 (AlpFrame.Write []),
   parse_consumes_monotonically.2 9 (AlpFrame.Write []) (by decide)⟩

/-- Counterexample to claim C8 as stated: on the one-byte stream
`[0x01]` Parse consumes nothing, so iterating Parse never consumes the
byte — the stream is nonempty yet every iterate returns it unchanged. -/
theorem parse_consumes_monotonically_counterexample :
    AlpFrame.Parse [1] = (0, false, none) ∧
    parseAll 100 [1] = [1] ∧ ([1] : List Nat) ≠ [] := by
  refine ⟨by decide, by decide, by decide⟩

/-- Length of the encoded data field: two wire bytes per payload
byte. -/
lemma encData_length (p : List Nat) : (encData p).length = 2 * p.length := by
  induction p with
  | nil => rfl
  | cons b q ih =>
      simp [encData, AlpFrame.Encode] at ih ⊢
      omega

/-- Total length of a written frame. -/
lemma write_length (p : List Nat) :
    (AlpFrame.Write p).length = 9 + 2 * p.length := by
  simp [AlpFrame.Write, AlpFrame.Encode, encData_length]
  omega

/-- Claim C9, amended: the minimum total length of an ALP wire frame is
9 bytes, attained by the empty payload: `AlpFrame.Write p` has length
`9 + 2·len p`, so `AlpFrame.Write []` is exactly 9 bytes, and
`AlpFrame.Parse` returns no complete frame from a buffer shorter than
9 bytes. -/
theorem frame_min_length :
    (∀ p : List Nat, (AlpFrame.Write p).length = 9 + 2 * p.length) ∧
    (AlpFrame.Write []).length = 9 ∧
    (∀ b : List Nat, b.length < 9 → AlpFrame.Parse b = (0, false, none)) := by
  refine ⟨write_length, by decide, ?_⟩
  intro b hb
  unfold AlpFrame.Parse
  dsimp only
  rw [if_pos hb]

/-- Witness for `frame_min_length` at a one-byte payload and an 8-byte
buffer. -/
theorem frame_min_length_witness :
    (AlpFrame.Write [1]).length = 9 + 2 * 1 ∧
    AlpFrame.Parse [1, 65, 50, 2, 48, 48, 3, 48] = (0, false, none) :=
  ⟨frame_min_length.1 [1],
   frame_min_length.2.2 [1, 65, 50, 2, 48, 48, 3, 48] (by decide)⟩

/-- Counterexample to claim C9 as stated: the frame written for the
empty payload is 9 bytes, not at least 10, and that 9-byte buffer
already parses to a complete frame. -/
theorem frame_min_length_counterexample :
    (AlpFrame.Write []).length = 9 ∧
    ¬ 10 ≤ (AlpFrame.Write []).length ∧
    AlpFrame.Parse (AlpFrame.Write []) = (9, false, some []) := by
  refine ⟨by decide, by decide, by decide⟩

lemma parse_excl (data : List Nat) :
    ((AlpFrame.Parse data).2.1 = true → (AlpFrame.Parse data).2.2 = none) ∧
    (∀ f, (AlpFrame.Parse data).2.2 = some f → (AlpFrame.Parse data).2.1 = false) := by
  unfold AlpFrame.Parse
  dsimp only
  split
  · simp
  · split
    · simp
    · split
      · simp
      · split
        · simp
        · exact parseFinish_excl ..
        · exact parseFinish_excl ..

/-! ## Helper facts about the session operations -/

lemma write_written (st : AlpPort) (buf : List Nat) :
    (st.write buf).written = st.written ++ [buf] := rfl

lemma consume_rx_written (st : AlpPort) (n : Nat) :
    (st.consume_rx_buffer n).written = st.written := rfl

lemma clear_rx_written (st : AlpPort) :
    st.clear_rx_buffer.written = st.written := rfl

lemma session_finish_written (st : AlpPort) :
    st.session_finish.written = st.written := rfl

lemma session_begin_written (st : AlpPort) (s : Nat) :
    (st.session_begin s).written = st.written := rfl

lemma transmit_control_char_written (st : AlpPort) (now : Int) (c : Nat) :
    (st.transmit_control_char now c).written = st.written ++ [[c]] := by
  unfold AlpPort.transmit_control_char
  split <;> rfl

lemma check_control_char_false (st : AlpPort) (now : Int) (data : List Nat)
    (h : (st.check_control_char now data).1 = false) :
    (st.check_control_char now data).2 = st := by
  unfold AlpPort.check_control_char at h ⊢
  cases hd : data.head? with
  | none => rfl
  | some c =>
      simp only [hd] at h ⊢
      split_ifs at h ⊢ <;> simp_all

/-- Claim C10: the `nack` flag and the decoded frame returned by
`AlpFrame.Parse` are mutually exclusive for every input buffer, and
consequently a parse-path iteration of `on_receive` adds at most one
control-byte write — nothing, a single NAK, or a single ACK — never
both a NAK and an ACK for one parse result. -/
theorem nack_frame_mutually_exclusive :
    (∀ data : List Nat,
      (AlpFrame.Parse data).2.1 = false ∨ (AlpFrame.Parse data).2.2 = none) ∧
    (∀ (st : AlpPort) (se : List Nat → Bool) (now : Int) (data : List Nat) (valid : Bool),
      (st.check_control_char now data).1 = false →
      (st.rxStep se now data valid).1.written = st.written ∨
      (st.rxStep se now data valid).1.written = st.written ++ [[NAK]] ∨
      (st.rxStep se now data valid).1.written = st.written ++ [[ACK]]) := by
  constructor
  · intro data
    cases hn : (AlpFrame.Parse data).2.1 with
    | false => exact Or.inl rfl
    | true => exact Or.inr ((parse_excl data).1 hn)
  · intro st se now data valid hcc
    have hs := check_control_char_false st now data hcc
    unfold AlpPort.rxStep
    dsimp only
    rw [hcc, hs]
    simp only [Bool.false_eq_true, if_false]
    split_ifs <;>
      simp_all [AlpPort.send_nak, AlpPort.send_ack, AlpPort.transmit_control_char,
        AlpPort.session_begin, AlpPort.session_finish, AlpPort.clear_rx_buffer,
        AlpPort.consume_rx_buffer, AlpPort.write, AlpPort.session_is_active,
        apply_ite AlpPort.written]

/-- Witness for `nack_frame_mutually_exclusive` at a concrete buffer
whose first byte is not a control byte. -/
theorem nack_frame_mutually_exclusive_witness :
    ((AlpFrame.Parse [1, 2]).2.1 = false ∨ (AlpFrame.Parse [1, 2]).2.2 = none) ∧
    (((AlpPort.init 0).rxStep (fun _ => false) 0 [1, 2] false).1.written =
        (AlpPort.init 0).written ∨
      ((AlpPort.init 0).rxStep (fun _ => false) 0 [1, 2] false).1.written =
        (AlpPort.init 0).written ++ [[NAK]] ∨
      ((AlpPort.init 0).rxStep (fun _ => false) 0 [1, 2] false).1.written =
        (AlpPort.init 0).written ++ [[ACK]]) :=
  ⟨nack_frame_mutually_exclusive.1 [1, 2],
   nack_frame_mutually_exclusive.2 (AlpPort.init 0) (fun _ => false) 0 [1, 2] false
     (by decide)⟩

/-! ## Round-trip: `Parse (Write p)` -/

lemma encode_eq_of_lt (b : Nat) (hb : b < 256) :
    AlpFrame.Encode b = [b >>> 4 + 48, (b &&& 15) + 48] := by
  unfold AlpFrame.Encode
  rw [Nat.mod_eq_of_lt hb]

set_option maxRecDepth 8000 in
/-- Decoding inverts encoding on every byte, the two wire bytes are
nibble-bytes in `0x30 .. 0x3f`, and neither can be `ETX`. -/
lemma encPair_ok : ∀ v : Fin 256,
    AlpFrame.Decode (v.val >>> 4 + 48) ((v.val &&& 15) + 48) = some v.val ∧
    v.val >>> 4 + 48 ≠ ETX ∧ (v.val &&& 15) + 48 ≠ ETX ∧
    48 ≤ v.val >>> 4 + 48 ∧ v.val >>> 4 + 48 ≤ 63 ∧
    48 ≤ (v.val &&& 15) + 48 ∧ (v.val &&& 15) + 48 ≤ 63 := by decide

lemma getD_of_drop (B : List Nat) (i x : Nat) (l : List Nat)
    (h : B.drop i = x :: l) : B.getD i 0 = x := by
  induction B generalizing i with
  | nil => simp at h
  | cons a B ih =>
      cases i with
      | zero =>
          simp only [List.drop_zero] at h
          cases h
          rfl
      | succ n =>
          simp only [List.drop_succ_cons] at h
          simpa using ih n h

lemma drop_succ_of_drop (B : List Nat) (i x : Nat) (l : List Nat)
    (h : B.drop i = x :: l) : B.drop (i + 1) = l := by
  have h2 := congrArg (List.drop 1) h
  rw [List.drop_drop] at h2
  simpa [Nat.add_comm] using h2

lemma foldl_xor_lt (l : List Nat) :
    ∀ c : Nat, c < 256 → (∀ x ∈ l, x < 256) → List.foldl (· ^^^ ·) c l < 256 := by
  induction l with
  | nil => intro c hc _; simpa using hc
  | cons a l ih =>
      intro c hc hl
      simp only [List.foldl_cons]
      exact ih (c ^^^ a) (Nat.xor_lt_two_pow (n := 8) hc (hl a (by simp)))
        (fun x hx => hl x (by simp [hx]))

lemma encData_mem_lt (p : List Nat) : ∀ x ∈ encData p, x < 256 := by
  induction p with
  | nil => simp [encData]
  | cons b q ih =>
      intro x hx
      simp only [encData, List.flatMap_cons] at hx
      rcases List.mem_append.mp hx with hx | hx
      · unfold AlpFrame.Encode at hx
        have h1 : (b % 256) >>> 4 < 256 := by
          rw [Nat.shiftRight_eq_div_pow]
          omega
        have h2 : (b % 256) &&& 15 ≤ 15 := Nat.and_le_right
        simp only [List.mem_cons, List.mem_singleton] at hx
        rcases hx with rfl | rfl | h
        · omega
        · omega
        · cases h
      · exact ih x hx

lemma chkparOf_lt (p : List Nat) : chkparOf (encData p) < 256 :=
  foldl_xor_lt (encData p) 0 (by omega) (encData_mem_lt p)

lemma chksumOf_lt (l : List Nat) : chksumOf l < 256 := Nat.mod_lt _ (by omega)

lemma parseWalkGo_encoded (data : List Nat) (stop : Nat) :
    ∀ (q rest : List Nat) (fuel i chksum chkpar : Nat) (acc : List Nat),
      (∀ b ∈ q, b < 256) →
      data.drop i = encData q ++ ETX :: rest →
      i + 2 * q.length < stop →
      stop - i ≤ fuel →
      parseWalkGo data stop fuel i chksum chkpar acc =
        .brk (i + 2 * q.length) ((List.foldl (· + ·) chksum (encData q)) % 256)
          (List.foldl (· ^^^ ·) chkpar (encData q)) (acc ++ q) := by
  intro q
  induction q with
  | nil =>
      intro rest fuel i chksum chkpar acc hq hdrop hstop hfuel
      have hget : data.getD i 0 = ETX :=
        getD_of_drop _ _ _ _ (by simpa [encData] using hdrop)
      cases fuel with
      | zero => omega
      | succ n =>
          unfold parseWalkGo
          dsimp only
          rw [if_pos (by omega : i < stop), if_pos hget]
          simp [encData]
  | cons b q ih =>
      intro rest fuel i chksum chkpar acc hq hdrop hstop hfuel
      have hb : b < 256 := hq b (by simp)
      have henc : AlpFrame.Encode b = [b >>> 4 + 48, (b &&& 15) + 48] :=
        encode_eq_of_lt b hb
      have hok := encPair_ok ⟨b, hb⟩
      have hdrop0 : data.drop i = (b >>> 4 + 48) ::
          ((b &&& 15) + 48) :: (encData q ++ ETX :: rest) := by
        simpa [encData, henc] using hdrop
      have hget0 : data.getD i 0 = b >>> 4 + 48 := getD_of_drop _ _ _ _ hdrop0
      have hdrop1 := drop_succ_of_drop _ _ _ _ hdrop0
      have hget1 : data.getD (i + 1) 0 = (b &&& 15) + 48 := getD_of_drop _ _ _ _ hdrop1
      have hdrop2 := drop_succ_of_drop _ _ _ _ hdrop1
      have hlen : (b :: q).length = q.length + 1 := rfl
      cases fuel with
      | zero => simp [hlen] at hstop; omega
      | succ n =>
          unfold parseWalkGo
          dsimp only
          rw [if_pos (by simp [hlen] at hstop; omega : i < stop)]
          rw [hget0, hget1, if_neg hok.2.1]
          rw [show AlpFrame.Decode (b >>> 4 + 48) ((b &&& 15) + 48) = some b from hok.1]
          dsimp only
          have := ih rest n (i + 2) (chksum + (b >>> 4 + 48) + ((b &&& 15) + 48))
            ((chkpar ^^^ (b >>> 4 + 48)) ^^^ ((b &&& 15) + 48)) (acc ++ [b])
            (fun x hx => hq x (by simp [hx]))
            (by simpa [Nat.add_assoc] using hdrop2)
            (by simp [hlen] at hstop; omega)
            (by omega)
          rw [this]
          simp only [encData, List.flatMap_cons, henc, List.foldl_append, List.foldl_cons,
            List.foldl_nil, List.append_assoc, List.singleton_append, hlen]
          congr 1
          omega

/-- Claim C1: for every byte sequence `p` of length at most 500,
`AlpFrame.Parse (AlpFrame.Write p)` returns exactly the total length of
the written frame, `nack = false`, and the decoded payload `p`: the
whole frame is consumed, no NAK is requested and the round trip is the
identity. -/
theorem parse_write_roundtrip (p : List Nat) (hlen : p.length ≤ 500)
    (hbytes : ∀ b ∈ p, b < 256) :
    AlpFrame.Parse (AlpFrame.Write p) = ((AlpFrame.Write p).length, false, some p) := by
  have hW : AlpFrame.Write p = SOH :: PI1 :: PI2 :: STX :: (encData p ++ ETX ::
      (AlpFrame.Encode (chksumOf (encData p)) ++ AlpFrame.Encode (chkparOf (encData p)))) := by
    simp [AlpFrame.Write]
  have hcs256 : chksumOf (encData p) < 256 := chksumOf_lt (encData p)
  have hcp256 : chkparOf (encData p) < 256 := chkparOf_lt p
  have hencCs : AlpFrame.Encode (chksumOf (encData p)) =
      [chksumOf (encData p) >>> 4 + 48, (chksumOf (encData p) &&& 15) + 48] :=
    encode_eq_of_lt _ hcs256
  have hencCp : AlpFrame.Encode (chkparOf (encData p)) =
      [chkparOf (encData p) >>> 4 + 48, (chkparOf (encData p) &&& 15) + 48] :=
    encode_eq_of_lt _ hcp256
  have h0 : (AlpFrame.Write p).getD 0 0 = SOH := by rw [hW]; rfl
  have h1 : (AlpFrame.Write p).getD 1 0 = PI1 := by rw [hW]; rfl
  have h2 : (AlpFrame.Write p).getD 2 0 = PI2 := by rw [hW]; rfl
  have h3 : (AlpFrame.Write p).getD 3 0 = STX := by rw [hW]; rfl
  have hdrop4 : (AlpFrame.Write p).drop 4 = encData p ++ ETX ::
      (AlpFrame.Encode (chksumOf (encData p)) ++ AlpFrame.Encode (chkparOf (encData p))) := by
    rw [hW]
    rfl
  have hdropO : (AlpFrame.Write p).drop (4 + 2 * p.length) = ETX ::
      (AlpFrame.Encode (chksumOf (encData p)) ++ AlpFrame.Encode (chkparOf (encData p))) := by
    rw [← List.drop_drop, hdrop4, ← encData_length p, List.drop_left]
  have hdropO2 : (AlpFrame.Write p).drop (4 + 2 * p.length) = ETX ::
      (chksumOf (encData p) >>> 4 + 48) :: ((chksumOf (encData p) &&& 15) + 48) ::
      (chkparOf (encData p) >>> 4 + 48) :: ((chkparOf (encData p) &&& 15) + 48) :: [] := by
    rw [hdropO, hencCs, hencCp]
    rfl
  have hgetO : (AlpFrame.Write p).getD (4 + 2 * p.length) 0 = ETX :=
    getD_of_drop _ _ _ _ hdropO2
  have hd1 := drop_succ_of_drop _ _ _ _ hdropO2
  have hg1 := getD_of_drop _ _ _ _ hd1
  have hd2 := drop_succ_of_drop _ _ _ _ hd1
  have hg2 := getD_of_drop _ _ _ _ hd2
  have hd3 := drop_succ_of_drop _ _ _ _ hd2
  have hg3 := getD_of_drop _ _ _ _ hd3
  have hd4 := drop_succ_of_drop _ _ _ _ hd3
  have hg4 := getD_of_drop _ _ _ _ hd4
  unfold AlpFrame.Parse
  dsimp only
  rw [write_length p]
  rw [if_neg (by omega : ¬ 9 + 2 * p.length < 9)]
  have hfs : findStart (AlpFrame.Write p) 0 (9 + 2 * p.length - 8) = some 0 := by
    rw [show 9 + 2 * p.length - 8 = 2 * p.length + 1 from by omega]
    unfold findStart
    rw [if_pos ⟨h0, by simpa using h1, by simpa using h2⟩]
  rw [hfs]
  dsimp only
  rw [if_neg (by simpa using h3)]
  rw [show (9 + 2 * p.length) / 2 * 2 - 2 = 2 * p.length + 6 from by omega]
  unfold parseWalk
  have hwalk := parseWalkGo_encoded (AlpFrame.Write p) (2 * p.length + 6) p
    (AlpFrame.Encode (chksumOf (encData p)) ++ AlpFrame.Encode (chkparOf (encData p)))
    (2 * p.length + 6 - (0 + 4)) (0 + 4) 0 0 [] hbytes (by simpa using hdrop4)
    (by omega) (by omega)
  rw [hwalk]
  dsimp only
  unfold parseFinish
  simp only [Nat.zero_add]
  rw [if_neg (by push_neg; exact ⟨hgetO, by omega⟩)]
  rw [show 4 + 2 * p.length + 2 = 4 + 2 * p.length + 1 + 1 from by omega,
      show 4 + 2 * p.length + 3 = 4 + 2 * p.length + 1 + 1 + 1 from by omega,
      show 4 + 2 * p.length + 4 = 4 + 2 * p.length + 1 + 1 + 1 + 1 from by omega]
  rw [hg1, hg2, hg3, hg4]
  rw [show AlpFrame.Decode (chksumOf (encData p) >>> 4 + 48)
        ((chksumOf (encData p) &&& 15) + 48) = some (chksumOf (encData p)) from
      (encPair_ok ⟨chksumOf (encData p), hcs256⟩).1,
      show AlpFrame.Decode (chkparOf (encData p) >>> 4 + 48)
        ((chkparOf (encData p) &&& 15) + 48) = some (chkparOf (encData p)) from
      (encPair_ok ⟨chkparOf (encData p), hcp256⟩).1]
  dsimp only
  rw [if_neg (by simp [chksumOf, chkparOf])]
  rw [show 4 + 2 * p.length + 5 = 9 + 2 * p.length from by omega]
  simp


/-- Witness for `parse_write_roundtrip` at the two-byte payload
`[1, 2]`. -/
theorem parse_write_roundtrip_witness :
    ([1, 2] : List Nat).length ≤ 500 ∧
    AlpFrame.Parse (AlpFrame.Write [1, 2]) = ((AlpFrame.Write [1, 2]).length, false, some [1, 2]) :=
  ⟨by decide, parse_write_roundtrip [1, 2] (by decide) (by decide)⟩

/-! ## Corrupt detection -/

lemma decode_none_of_bad_left (b0 b1 : Nat) (h : b0 < 48 ∨ 63 < b0) :
    AlpFrame.Decode b0 b1 = none := by
  unfold AlpFrame.Decode
  rw [if_pos]
  rcases h with h | h
  · exact Or.inl h
  · exact Or.inr (Or.inl h)

lemma decode_none_of_bad_right (b0 b1 : Nat) (h : b1 < 48 ∨ 63 < b1) :
    AlpFrame.Decode b0 b1 = none := by
  unfold AlpFrame.Decode
  rw [if_pos]
  rcases h with h | h
  · exact Or.inr (Or.inr (Or.inl h))
  · exact Or.inr (Or.inr (Or.inr h))

set_option maxRecDepth 16000 in
/-- Effect of flipping one bit of the first nibble-byte of an encoded
pair: a low-nibble flip keeps the byte decodable but changes the
decoded value; a high-nibble flip leaves `0x30 .. 0x3f` and decoding
fails. -/
lemma flip_first_byte : ∀ (v : Fin 256) (k : Fin 8),
    (k.val < 4 →
      (AlpFrame.Decode (v.val >>> 4 + 48 ^^^ 2 ^ k.val) ((v.val &&& 15) + 48)).isSome ∧
      AlpFrame.Decode (v.val >>> 4 + 48 ^^^ 2 ^ k.val) ((v.val &&& 15) + 48) ≠ some v.val) ∧
    (4 ≤ k.val →
      AlpFrame.Decode (v.val >>> 4 + 48 ^^^ 2 ^ k.val) ((v.val &&& 15) + 48) = none) := by
  decide

set_option maxRecDepth 16000 in
/-- Effect of flipping one bit of the second nibble-byte of an encoded
pair. -/
lemma flip_second_byte : ∀ (v : Fin 256) (k : Fin 8),
    (k.val < 4 →
      (AlpFrame.Decode (v.val >>> 4 + 48) ((v.val &&& 15) + 48 ^^^ 2 ^ k.val)).isSome ∧
      AlpFrame.Decode (v.val >>> 4 + 48) ((v.val &&& 15) + 48 ^^^ 2 ^ k.val) ≠ some v.val) ∧
    (4 ≤ k.val →
      AlpFrame.Decode (v.val >>> 4 + 48) ((v.val &&& 15) + 48 ^^^ 2 ^ k.val) = none) := by
  decide

lemma set_append_add (l : List Nat) :
    ∀ (r : List Nat) (k v : Nat), (l ++ r).set (l.length + k) v = l ++ r.set k v := by
  induction l with
  | nil => intro r k v; simp
  | cons a l ih =>
      intro r k v
      have : (a :: l).length + k = (l.length + k) + 1 := by simp; omega
      rw [this]
      simp only [List.cons_append, List.set_cons_succ]
      rw [ih]

/-- The data-field loop hits a bad pair right after walking the encoded
prefix `q`: it returns `.bad` at the pair's offset. -/
lemma parseWalkGo_to_bad (data : List Nat) (stop : Nat) :
    ∀ (q rest : List Nat) (w0 w1 fuel i chksum chkpar : Nat) (acc : List Nat),
      (∀ b ∈ q, b < 256) →
      data.drop i = encData q ++ w0 :: w1 :: rest →
      w0 ≠ ETX →
      AlpFrame.Decode w0 w1 = none →
      i + 2 * q.length < stop →
      stop - i ≤ fuel →
      parseWalkGo data stop fuel i chksum chkpar acc = .bad (i + 2 * q.length) := by
  intro q
  induction q with
  | nil =>
      intro rest w0 w1 fuel i chksum chkpar acc hq hdrop hw0 hdec hstop hfuel
      have hdrop0 : data.drop i = w0 :: w1 :: rest := by simpa [encData] using hdrop
      have hget0 : data.getD i 0 = w0 := getD_of_drop _ _ _ _ hdrop0
      have hget1 : data.getD (i + 1) 0 = w1 :=
        getD_of_drop _ _ _ _ (drop_succ_of_drop _ _ _ _ hdrop0)
      cases fuel with
      | zero => omega
      | succ n =>
          unfold parseWalkGo
          dsimp only
          rw [if_pos (by omega : i < stop), hget0, if_neg hw0, hget1, hdec]
          simp
  | cons b q ih =>
      intro rest w0 w1 fuel i chksum chkpar acc hq hdrop hw0 hdec hstop hfuel
      have hb : b < 256 := hq b (by simp)
      have henc : AlpFrame.Encode b = [b >>> 4 + 48, (b &&& 15) + 48] :=
        encode_eq_of_lt b hb
      have hok := encPair_ok ⟨b, hb⟩
      have hdrop0 : data.drop i = (b >>> 4 + 48) ::
          ((b &&& 15) + 48) :: (encData q ++ w0 :: w1 :: rest) := by
        simpa [encData, henc] using hdrop
      have hget0 : data.getD i 0 = b >>> 4 + 48 := getD_of_drop _ _ _ _ hdrop0
      have hdrop1 := drop_succ_of_drop _ _ _ _ hdrop0
      have hget1 : data.getD (i + 1) 0 = (b &&& 15) + 48 := getD_of_drop _ _ _ _ hdrop1
      have hdrop2 := drop_succ_of_drop _ _ _ _ hdrop1
      have hlen : (b :: q).length = q.length + 1 := rfl
      cases fuel with
      | zero => simp [hlen] at hstop; omega
      | succ n =>
          unfold parseWalkGo
          dsimp only
          rw [if_pos (by simp [hlen] at hstop; omega : i < stop)]
          rw [hget0, hget1, if_neg hok.2.1]
          rw [show AlpFrame.Decode (b >>> 4 + 48) ((b &&& 15) + 48) = some b from hok.1]
          dsimp only
          have := ih rest w0 w1 n (i + 2) (chksum + (b >>> 4 + 48) + ((b &&& 15) + 48))
            ((chkpar ^^^ (b >>> 4 + 48)) ^^^ ((b &&& 15) + 48)) (acc ++ [b])
            (fun x hx => hq x (by simp [hx]))
            (by simpa [Nat.add_assoc] using hdrop2)
            hw0 hdec
            (by simp [hlen] at hstop; omega)
            (by omega)
          rw [this]
          congr 1
          simp [hlen]
          omega

/-- Splitting the encoded data field at payload position `m`. -/
lemma encData_split (p : List Nat) :
    ∀ (m : Nat) (hm : m < p.length),
      encData p = encData (p.take m) ++
        (AlpFrame.Encode (p.get ⟨m, hm⟩) ++ encData (p.drop (m + 1))) := by
  induction p with
  | nil => intro m hm; simp at hm
  | cons b q ih =>
      intro m hm
      cases m with
      | zero => simp [encData]
      | succ m2 =>
          have hm2 : m2 < q.length := by simpa using hm
          have := ih m2 hm2
          simp only [List.take_succ_cons, List.drop_succ_cons, encData,
            List.flatMap_cons] at this ⊢
          rw [this]
          simp [List.append_assoc]

/-- Replacing one data-field nibble-byte of a written frame with an
out-of-range value (not the pair-initial `ETX` case) makes Parse fail
at the pair's offset with a NAK and no frame. -/
lemma parse_data_byte_corrupt (p : List Nat) (hbytes : ∀ b ∈ p, b < 256)
    (m : Nat) (hm : m < p.length) (side : Nat) (hside : side < 2) (v : Nat)
    (hv : v < 48 ∨ 63 < v) (hnetx : ¬(side = 0 ∧ v = ETX)) :
    AlpFrame.Parse ((AlpFrame.Write p).set (4 + 2 * m + side) v) =
      (4 + 2 * m, true, none) := by
  have htake : (p.take m).length = m := by
    simp [List.length_take]
    omega
  have hpm : p.get ⟨m, hm⟩ < 256 := hbytes _ (p.get_mem m hm)
  have henc : AlpFrame.Encode (p.get ⟨m, hm⟩) =
      [p.get ⟨m, hm⟩ >>> 4 + 48, (p.get ⟨m, hm⟩ &&& 15) + 48] := encode_eq_of_lt _ hpm
  have hok := encPair_ok ⟨p.get ⟨m, hm⟩, hpm⟩
  have hmid : ∀ tail : List Nat, SOH :: PI1 :: PI2 :: STX :: (encData p ++ tail) =
      (SOH :: PI1 :: PI2 :: STX :: encData (p.take m)) ++
      ((p.get ⟨m, hm⟩ >>> 4 + 48) :: ((p.get ⟨m, hm⟩ &&& 15) + 48) ::
        (encData (p.drop (m + 1)) ++ tail)) := by
    intro tail
    rw [encData_split p m hm, henc]
    simp [List.append_assoc]
  have hWcons : AlpFrame.Write p = SOH :: PI1 :: PI2 :: STX :: (encData p ++ ETX ::
      (AlpFrame.Encode (chksumOf (encData p)) ++ AlpFrame.Encode (chkparOf (encData p)))) := by
    simp [AlpFrame.Write]
  have hWdecomp : AlpFrame.Write p =
      (SOH :: PI1 :: PI2 :: STX :: encData (p.take m)) ++
      ((p.get ⟨m, hm⟩ >>> 4 + 48) :: ((p.get ⟨m, hm⟩ &&& 15) + 48) ::
        (encData (p.drop (m + 1)) ++ ETX ::
          (AlpFrame.Encode (chksumOf (encData p)) ++
           AlpFrame.Encode (chkparOf (encData p))))) := by
    rw [hWcons]
    exact hmid _
  have hL : (SOH :: PI1 :: PI2 :: STX :: encData (p.take m)).length = 4 + 2 * m := by
    simp [encData_length, htake]
    omega
  have htklt : ∀ b ∈ p.take m, b < 256 := fun b hb => hbytes b (List.take_subset m p hb)
  have hstop4 : 4 + 2 * (p.take m).length < 2 * p.length + 6 := by
    rw [htake]; omega
  have hcase : side = 0 ∨ side = 1 := by omega
  rcases hcase with rfl | rfl
  · -- side 0: the first byte of the pair becomes v
    have hvne : v ≠ ETX := fun h => hnetx ⟨rfl, h⟩
    have hC : (AlpFrame.Write p).set (4 + 2 * m + 0) v =
        SOH :: PI1 :: PI2 :: STX :: (encData (p.take m) ++
          v :: ((p.get ⟨m, hm⟩ &&& 15) + 48) :: (encData (p.drop (m + 1)) ++ ETX ::
            (AlpFrame.Encode (chksumOf (encData p)) ++
             AlpFrame.Encode (chkparOf (encData p))))) := by
      rw [show (4 + 2 * m + 0) = (SOH :: PI1 :: PI2 :: STX :: encData (p.take m)).length + 0 from by rw [hL]]
      rw [hWdecomp, set_append_add]
      simp
    rw [hC]
    have hlenC : (SOH :: PI1 :: PI2 :: STX :: (encData (p.take m) ++
        v :: ((p.get ⟨m, hm⟩ &&& 15) + 48) :: (encData (p.drop (m + 1)) ++ ETX ::
          (AlpFrame.Encode (chksumOf (encData p)) ++
           AlpFrame.Encode (chkparOf (encData p)))))).length = 9 + 2 * p.length := by
      rw [← hC, List.length_set, write_length]
    unfold AlpFrame.Parse
    dsimp only
    rw [hlenC]
    rw [if_neg (by omega : ¬ 9 + 2 * p.length < 9)]
    have hfs : findStart (SOH :: PI1 :: PI2 :: STX :: (encData (p.take m) ++
        v :: ((p.get ⟨m, hm⟩ &&& 15) + 48) :: (encData (p.drop (m + 1)) ++ ETX ::
          (AlpFrame.Encode (chksumOf (encData p)) ++
           AlpFrame.Encode (chkparOf (encData p)))))) 0 (9 + 2 * p.length - 8) = some 0 := by
      rw [show 9 + 2 * p.length - 8 = 2 * p.length + 1 from by omega]
      unfold findStart
      rw [if_pos ⟨rfl, rfl, rfl⟩]
    rw [hfs]
    dsimp only
    rw [if_neg (by simp : ¬ (SOH :: PI1 :: PI2 :: STX :: (encData (p.take m) ++
        v :: ((p.get ⟨m, hm⟩ &&& 15) + 48) :: (encData (p.drop (m + 1)) ++ ETX ::
          (AlpFrame.Encode (chksumOf (encData p)) ++
           AlpFrame.Encode (chkparOf (encData p)))))).getD (0 + 3) 0 ≠ STX)]
    rw [show (9 + 2 * p.length) / 2 * 2 - 2 = 2 * p.length + 6 from by omega]
    unfold parseWalk
    rw [parseWalkGo_to_bad _ (2 * p.length + 6) (p.take m)
      (encData (p.drop (m + 1)) ++ ETX ::
        (AlpFrame.Encode (chksumOf (encData p)) ++ AlpFrame.Encode (chkparOf (encData p))))
      v ((p.get ⟨m, hm⟩ &&& 15) + 48) _ _ _ _ _ htklt (by rfl) hvne
      (decode_none_of_bad_left _ _ hv) (by simpa using hstop4) (by omega)]
    dsimp only
    rw [htake]
  · -- side 1: the second byte of the pair becomes v
    have hC : (AlpFrame.Write p).set (4 + 2 * m + 1) v =
        SOH :: PI1 :: PI2 :: STX :: (encData (p.take m) ++
          (p.get ⟨m, hm⟩ >>> 4 + 48) :: v :: (encData (p.drop (m + 1)) ++ ETX ::
            (AlpFrame.Encode (chksumOf (encData p)) ++
             AlpFrame.Encode (chkparOf (encData p))))) := by
      rw [show (4 + 2 * m + 1) = (SOH :: PI1 :: PI2 :: STX :: encData (p.take m)).length + 1 from by rw [hL]]
      rw [hWdecomp, set_append_add]
      simp
    rw [hC]
    have hlenC : (SOH :: PI1 :: PI2 :: STX :: (encData (p.take m) ++
        (p.get ⟨m, hm⟩ >>> 4 + 48) :: v :: (encData (p.drop (m + 1)) ++ ETX ::
          (AlpFrame.Encode (chksumOf (encData p)) ++
           AlpFrame.Encode (chkparOf (encData p)))))).length = 9 + 2 * p.length := by
      rw [← hC, List.length_set, write_length]
    unfold AlpFrame.Parse
    dsimp only
    rw [hlenC]
    rw [if_neg (by omega : ¬ 9 + 2 * p.length < 9)]
    have hfs : findStart (SOH :: PI1 :: PI2 :: STX :: (encData (p.take m) ++
        (p.get ⟨m, hm⟩ >>> 4 + 48) :: v :: (encData (p.drop (m + 1)) ++ ETX ::
          (AlpFrame.Encode (chksumOf (encData p)) ++
           AlpFrame.Encode (chkparOf (encData p)))))) 0 (9 + 2 * p.length - 8) = some 0 := by
      rw [show 9 + 2 * p.length - 8 = 2 * p.length + 1 from by omega]
      unfold findStart
      rw [if_pos ⟨rfl, rfl, rfl⟩]
    rw [hfs]
    dsimp only
    rw [if_neg (by simp : ¬ (SOH :: PI1 :: PI2 :: STX :: (encData (p.take m) ++
        (p.get ⟨m, hm⟩ >>> 4 + 48) :: v :: (encData (p.drop (m + 1)) ++ ETX ::
          (AlpFrame.Encode (chksumOf (encData p)) ++
           AlpFrame.Encode (chkparOf (encData p)))))).getD (0 + 3) 0 ≠ STX)]
    rw [show (9 + 2 * p.length) / 2 * 2 - 2 = 2 * p.length + 6 from by omega]
    unfold parseWalk
    rw [parseWalkGo_to_bad _ (2 * p.length + 6) (p.take m)
      (encData (p.drop (m + 1)) ++ ETX ::
        (AlpFrame.Encode (chksumOf (encData p)) ++ AlpFrame.Encode (chkparOf (encData p))))
      (p.get ⟨m, hm⟩ >>> 4 + 48) v _ _ _ _ _ htklt (by rfl) hok.2.1
      (decode_none_of_bad_right _ _ hv) (by simpa using hstop4) (by omega)]
    dsimp only
    rw [htake]

/-- Parse of a well-formed frame whose four trailing checksum-area
bytes are arbitrary: the data field decodes, then the outcome is
decided entirely by decoding and comparing the four bytes. -/
lemma parse_with_cs_bytes (p : List Nat) (hbytes : ∀ b ∈ p, b < 256)
    (c0 c1 c2 c3 : Nat) :
    AlpFrame.Parse (SOH :: PI1 :: PI2 :: STX ::
        (encData p ++ ETX :: (c0 :: c1 :: c2 :: c3 :: []))) =
      (match AlpFrame.Decode c0 c1, AlpFrame.Decode c2 c3 with
       | none, _ => (4 + 2 * p.length, true, none)
       | some _, none => (4 + 2 * p.length, true, none)
       | some fcs, some fcp =>
           if fcs ≠ chksumOf (encData p) ∨ fcp ≠ chkparOf (encData p)
           then (9 + 2 * p.length, true, none)
           else (9 + 2 * p.length, false, some p)) := by
  have hlenB : (SOH :: PI1 :: PI2 :: STX ::
      (encData p ++ ETX :: (c0 :: c1 :: c2 :: c3 :: []))).length = 9 + 2 * p.length := by
    simp [encData_length]
    omega
  have hdrop4 : (SOH :: PI1 :: PI2 :: STX ::
      (encData p ++ ETX :: (c0 :: c1 :: c2 :: c3 :: []))).drop 4 =
      encData p ++ ETX :: (c0 :: c1 :: c2 :: c3 :: []) := rfl
  have hdropO : (SOH :: PI1 :: PI2 :: STX ::
      (encData p ++ ETX :: (c0 :: c1 :: c2 :: c3 :: []))).drop (4 + 2 * p.length) =
      ETX :: (c0 :: c1 :: c2 :: c3 :: []) := by
    rw [← List.drop_drop, hdrop4, ← encData_length p, List.drop_left]
  have hgetO := getD_of_drop _ _ _ _ hdropO
  have hd1 := drop_succ_of_drop _ _ _ _ hdropO
  have hg1 := getD_of_drop _ _ _ _ hd1
  have hd2 := drop_succ_of_drop _ _ _ _ hd1
  have hg2 := getD_of_drop _ _ _ _ hd2
  have hd3 := drop_succ_of_drop _ _ _ _ hd2
  have hg3 := getD_of_drop _ _ _ _ hd3
  have hd4 := drop_succ_of_drop _ _ _ _ hd3
  have hg4 := getD_of_drop _ _ _ _ hd4
  unfold AlpFrame.Parse
  dsimp only
  rw [hlenB]
  rw [if_neg (by omega : ¬ 9 + 2 * p.length < 9)]
  have hfs : findStart (SOH :: PI1 :: PI2 :: STX ::
      (encData p ++ ETX :: (c0 :: c1 :: c2 :: c3 :: []))) 0 (9 + 2 * p.length - 8) =
      some 0 := by
    rw [show 9 + 2 * p.length - 8 = 2 * p.length + 1 from by omega]
    unfold findStart
    rw [if_pos ⟨rfl, rfl, rfl⟩]
  rw [hfs]
  dsimp only
  rw [if_neg (by simp : ¬ (SOH :: PI1 :: PI2 :: STX ::
      (encData p ++ ETX :: (c0 :: c1 :: c2 :: c3 :: []))).getD (0 + 3) 0 ≠ STX)]
  rw [show (9 + 2 * p.length) / 2 * 2 - 2 = 2 * p.length + 6 from by omega]
  unfold parseWalk
  have hwalk := parseWalkGo_encoded (SOH :: PI1 :: PI2 :: STX ::
      (encData p ++ ETX :: (c0 :: c1 :: c2 :: c3 :: []))) (2 * p.length + 6) p
    (c0 :: c1 :: c2 :: c3 :: [])
    (2 * p.length + 6 - (0 + 4)) (0 + 4) 0 0 [] hbytes (by simpa using hdrop4)
    (by omega) (by omega)
  rw [hwalk]
  dsimp only
  unfold parseFinish
  simp only [Nat.zero_add]
  rw [if_neg (by push_neg; exact ⟨hgetO, by omega⟩)]
  rw [show 4 + 2 * p.length + 2 = 4 + 2 * p.length + 1 + 1 from by omega,
      show 4 + 2 * p.length + 3 = 4 + 2 * p.length + 1 + 1 + 1 from by omega,
      show 4 + 2 * p.length + 4 = 4 + 2 * p.length + 1 + 1 + 1 + 1 from by omega]
  rw [hg1, hg2, hg3, hg4]
  cases hdc1 : AlpFrame.Decode c0 c1 with
  | none => rfl
  | some fcs =>
      cases hdc2 : AlpFrame.Decode c2 c3 with
      | none => rfl
      | some fcp =>
          dsimp only
          by_cases hmatch : fcs ≠ chksumOf (encData p) ∨ fcp ≠ chkparOf (encData p)
          · rw [if_pos (by simpa [chksumOf, chkparOf] using hmatch),
                if_pos hmatch]
            rw [show 4 + 2 * p.length + 5 = 9 + 2 * p.length from by omega]
          · rw [if_neg (by simpa [chksumOf, chkparOf] using hmatch),
                if_neg hmatch]
            rw [show 4 + 2 * p.length + 5 = 9 + 2 * p.length from by omega]
            simp

/-- Flipping bit `k` of checksum-area byte `j` of a written frame:
low-nibble flips fail the checksum comparison and consume the whole
frame; high-nibble flips make the byte undecodable and consume up to
the `ETX` offset.  Either way Parse reports `nack = true` and no
frame. -/
lemma parse_checksum_flip (p : List Nat) (hbytes : ∀ b ∈ p, b < 256)
    (j k : Nat) (hj : j < 4) (hk : k < 8) :
    AlpFrame.Parse ((AlpFrame.Write p).set (5 + 2 * p.length + j)
        ((AlpFrame.Write p).getD (5 + 2 * p.length + j) 0 ^^^ 2 ^ k)) =
      if k < 4 then (9 + 2 * p.length, true, none)
      else (4 + 2 * p.length, true, none) := by
  have hcs256 : chksumOf (encData p) < 256 := chksumOf_lt (encData p)
  have hcp256 : chkparOf (encData p) < 256 := chkparOf_lt p
  have hencCs : AlpFrame.Encode (chksumOf (encData p)) =
      [chksumOf (encData p) >>> 4 + 48, (chksumOf (encData p) &&& 15) + 48] :=
    encode_eq_of_lt _ hcs256
  have hencCp : AlpFrame.Encode (chkparOf (encData p)) =
      [chkparOf (encData p) >>> 4 + 48, (chkparOf (encData p) &&& 15) + 48] :=
    encode_eq_of_lt _ hcp256
  have hokCs := encPair_ok ⟨chksumOf (encData p), hcs256⟩
  have hokCp := encPair_ok ⟨chkparOf (encData p), hcp256⟩
  have hWsplit : AlpFrame.Write p =
      (SOH :: PI1 :: PI2 :: STX :: (encData p ++ [ETX])) ++
      ((chksumOf (encData p) >>> 4 + 48) :: ((chksumOf (encData p) &&& 15) + 48) ::
       (chkparOf (encData p) >>> 4 + 48) :: ((chkparOf (encData p) &&& 15) + 48) :: []) := by
    rw [AlpFrame.Write, hencCs, hencCp]
    simp [List.append_assoc]
  have hL : (SOH :: PI1 :: PI2 :: STX :: (encData p ++ [ETX])).length = 5 + 2 * p.length := by
    simp [encData_length]
    omega
  have hdropO : (AlpFrame.Write p).drop (4 + 2 * p.length) = ETX ::
      ((chksumOf (encData p) >>> 4 + 48) :: ((chksumOf (encData p) &&& 15) + 48) ::
       (chkparOf (encData p) >>> 4 + 48) :: ((chkparOf (encData p) &&& 15) + 48) :: []) := by
    have hdrop4 : (AlpFrame.Write p).drop 4 = encData p ++ ETX ::
        ((chksumOf (encData p) >>> 4 + 48) :: ((chksumOf (encData p) &&& 15) + 48) ::
         (chkparOf (encData p) >>> 4 + 48) :: ((chkparOf (encData p) &&& 15) + 48) :: []) := by
      rw [hWsplit]
      simp [List.append_assoc]
    rw [← List.drop_drop, hdrop4, ← encData_length p, List.drop_left]
  have hd1 := drop_succ_of_drop _ _ _ _ hdropO
  have hg1 := getD_of_drop _ _ _ _ hd1
  have hd2 := drop_succ_of_drop _ _ _ _ hd1
  have hg2 := getD_of_drop _ _ _ _ hd2
  have hd3 := drop_succ_of_drop _ _ _ _ hd2
  have hg3 := getD_of_drop _ _ _ _ hd3
  have hd4 := drop_succ_of_drop _ _ _ _ hd3
  have hg4 := getD_of_drop _ _ _ _ hd4
  have hcase : j = 0 ∨ j = 1 ∨ j = 2 ∨ j = 3 := by omega
  rcases hcase with rfl | rfl | rfl | rfl
  · -- j = 0: first checksum byte
    have hgv : (AlpFrame.Write p).getD (5 + 2 * p.length + 0) 0 =
        chksumOf (encData p) >>> 4 + 48 := by
      rw [show 5 + 2 * p.length + 0 = 4 + 2 * p.length + 1 from by omega]
      exact hg1
    rw [hgv]
    rw [show 5 + 2 * p.length + 0 =
        (SOH :: PI1 :: PI2 :: STX :: (encData p ++ [ETX])).length + 0 from by rw [hL]]
    rw [hWsplit, set_append_add]
    dsimp only [List.set]
    rw [show (SOH :: PI1 :: PI2 :: STX :: (encData p ++ [ETX])) ++
        ((chksumOf (encData p) >>> 4 + 48 ^^^ 2 ^ k) ::
         ((chksumOf (encData p) &&& 15) + 48) ::
         (chkparOf (encData p) >>> 4 + 48) :: ((chkparOf (encData p) &&& 15) + 48) :: []) =
        SOH :: PI1 :: PI2 :: STX :: (encData p ++ ETX ::
        ((chksumOf (encData p) >>> 4 + 48 ^^^ 2 ^ k) ::
         ((chksumOf (encData p) &&& 15) + 48) ::
         (chkparOf (encData p) >>> 4 + 48) :: ((chkparOf (encData p) &&& 15) + 48) :: []))
      from by simp [List.append_assoc]]
    rw [parse_with_cs_bytes p hbytes]
    have hflip := flip_first_byte ⟨chksumOf (encData p), hcs256⟩ ⟨k, hk⟩
    by_cases hk4 : k < 4
    · obtain ⟨hsome, hne⟩ := hflip.1 hk4
      obtain ⟨w, hw⟩ := Option.isSome_iff_exists.mp hsome
      rw [hw]
      rw [show AlpFrame.Decode (chkparOf (encData p) >>> 4 + 48)
          ((chkparOf (encData p) &&& 15) + 48) = some (chkparOf (encData p)) from hokCp.1]
      dsimp only
      rw [if_pos (Or.inl (by rw [hw] at hne; intro h; exact hne (by rw [h]))),
          if_pos hk4]
    · rw [hflip.2 (show (4 : Nat) <= k by omega)]
      rw [if_neg hk4]
  · -- j = 1: second checksum byte
    have hgv : (AlpFrame.Write p).getD (5 + 2 * p.length + 1) 0 =
        (chksumOf (encData p) &&& 15) + 48 := by
      rw [show 5 + 2 * p.length + 1 = 4 + 2 * p.length + 1 + 1 from by omega]
      exact hg2
    rw [hgv]
    rw [show 5 + 2 * p.length + 1 =
        (SOH :: PI1 :: PI2 :: STX :: (encData p ++ [ETX])).length + 1 from by rw [hL]]
    rw [hWsplit, set_append_add]
    dsimp only [List.set]
    rw [show (SOH :: PI1 :: PI2 :: STX :: (encData p ++ [ETX])) ++
        ((chksumOf (encData p) >>> 4 + 48) ::
         ((chksumOf (encData p) &&& 15) + 48 ^^^ 2 ^ k) ::
         (chkparOf (encData p) >>> 4 + 48) :: ((chkparOf (encData p) &&& 15) + 48) :: []) =
        SOH :: PI1 :: PI2 :: STX :: (encData p ++ ETX ::
        ((chksumOf (encData p) >>> 4 + 48) ::
         ((chksumOf (encData p) &&& 15) + 48 ^^^ 2 ^ k) ::
         (chkparOf (encData p) >>> 4 + 48) :: ((chkparOf (encData p) &&& 15) + 48) :: []))
      from by simp [List.append_assoc]]
    rw [parse_with_cs_bytes p hbytes]
    have hflip := flip_second_byte ⟨chksumOf (encData p), hcs256⟩ ⟨k, hk⟩
    by_cases hk4 : k < 4
    · obtain ⟨hsome, hne⟩ := hflip.1 hk4
      obtain ⟨w, hw⟩ := Option.isSome_iff_exists.mp hsome
      rw [hw]
      rw [show AlpFrame.Decode (chkparOf (encData p) >>> 4 + 48)
          ((chkparOf (encData p) &&& 15) + 48) = some (chkparOf (encData p)) from hokCp.1]
      dsimp only
      rw [if_pos (Or.inl (by rw [hw] at hne; intro h; exact hne (by rw [h]))),
          if_pos hk4]
    · rw [hflip.2 (show (4 : Nat) <= k by omega)]
      rw [if_neg hk4]
  · -- j = 2: first parity byte
    have hgv : (AlpFrame.Write p).getD (5 + 2 * p.length + 2) 0 =
        chkparOf (encData p) >>> 4 + 48 := by
      rw [show 5 + 2 * p.length + 2 = 4 + 2 * p.length + 1 + 1 + 1 from by omega]
      exact hg3
    rw [hgv]
    rw [show 5 + 2 * p.length + 2 =
        (SOH :: PI1 :: PI2 :: STX :: (encData p ++ [ETX])).length + 2 from by rw [hL]]
    rw [hWsplit, set_append_add]
    dsimp only [List.set]
    rw [show (SOH :: PI1 :: PI2 :: STX :: (encData p ++ [ETX])) ++
        ((chksumOf (encData p) >>> 4 + 48) :: ((chksumOf (encData p) &&& 15) + 48) ::
         (chkparOf (encData p) >>> 4 + 48 ^^^ 2 ^ k) ::
         ((chkparOf (encData p) &&& 15) + 48) :: []) =
        SOH :: PI1 :: PI2 :: STX :: (encData p ++ ETX ::
        ((chksumOf (encData p) >>> 4 + 48) :: ((chksumOf (encData p) &&& 15) + 48) ::
         (chkparOf (encData p) >>> 4 + 48 ^^^ 2 ^ k) ::
         ((chkparOf (encData p) &&& 15) + 48) :: []))
      from by simp [List.append_assoc]]
    rw [parse_with_cs_bytes p hbytes]
    rw [show AlpFrame.Decode (chksumOf (encData p) >>> 4 + 48)
        ((chksumOf (encData p) &&& 15) + 48) = some (chksumOf (encData p)) from hokCs.1]
    have hflip := flip_first_byte ⟨chkparOf (encData p), hcp256⟩ ⟨k, hk⟩
    by_cases hk4 : k < 4
    · obtain ⟨hsome, hne⟩ := hflip.1 hk4
      obtain ⟨w, hw⟩ := Option.isSome_iff_exists.mp hsome
      rw [hw]
      dsimp only
      rw [if_pos (Or.inr (by rw [hw] at hne; intro h; exact hne (by rw [h]))),
          if_pos hk4]
    · rw [hflip.2 (show (4 : Nat) <= k by omega)]
      rw [if_neg hk4]
  · -- j = 3: second parity byte
    have hgv : (AlpFrame.Write p).getD (5 + 2 * p.length + 3) 0 =
        (chkparOf (encData p) &&& 15) + 48 := by
      rw [show 5 + 2 * p.length + 3 = 4 + 2 * p.length + 1 + 1 + 1 + 1 from by omega]
      exact hg4
    rw [hgv]
    rw [show 5 + 2 * p.length + 3 =
        (SOH :: PI1 :: PI2 :: STX :: (encData p ++ [ETX])).length + 3 from by rw [hL]]
    rw [hWsplit, set_append_add]
    dsimp only [List.set]
    rw [show (SOH :: PI1 :: PI2 :: STX :: (encData p ++ [ETX])) ++
        ((chksumOf (encData p) >>> 4 + 48) :: ((chksumOf (encData p) &&& 15) + 48) ::
         (chkparOf (encData p) >>> 4 + 48) ::
         ((chkparOf (encData p) &&& 15) + 48 ^^^ 2 ^ k) :: []) =
        SOH :: PI1 :: PI2 :: STX :: (encData p ++ ETX ::
        ((chksumOf (encData p) >>> 4 + 48) :: ((chksumOf (encData p) &&& 15) + 48) ::
         (chkparOf (encData p) >>> 4 + 48) ::
         ((chkparOf (encData p) &&& 15) + 48 ^^^ 2 ^ k) :: []))
      from by simp [List.append_assoc]]
    rw [parse_with_cs_bytes p hbytes]
    rw [show AlpFrame.Decode (chksumOf (encData p) >>> 4 + 48)
        ((chksumOf (encData p) &&& 15) + 48) = some (chksumOf (encData p)) from hokCs.1]
    have hflip := flip_second_byte ⟨chkparOf (encData p), hcp256⟩ ⟨k, hk⟩
    by_cases hk4 : k < 4
    · obtain ⟨hsome, hne⟩ := hflip.1 hk4
      obtain ⟨w, hw⟩ := Option.isSome_iff_exists.mp hsome
      rw [hw]
      dsimp only
      rw [if_pos (Or.inr (by rw [hw] at hne; intro h; exact hne (by rw [h]))),
          if_pos hk4]
    · rw [hflip.2 (show (4 : Nat) <= k by omega)]
      rw [if_neg hk4]

/-- Claim C3, amended: for a valid frame `Write p`, flipping any single
bit of any of the four checksum/parity nibble-bytes yields `nack` and
no frame — a low-nibble flip returns `(etx_offset + 5, true, none)`
while a high-nibble flip makes the byte undecodable and returns
`(etx_offset, true, none)`; and replacing any single data-field
nibble-byte by a value outside `0x30 .. 0x3f` yields
`(pair_offset, true, none)`, except that replacing the first byte of a
pair by `ETX` itself truncates the frame instead (and can even parse
successfully, see the counterexample). -/
theorem corrupt_detection (p : List Nat) (hbytes : ∀ b ∈ p, b < 256) :
    (∀ j k : Nat, j < 4 → k < 8 →
      AlpFrame.Parse ((AlpFrame.Write p).set (5 + 2 * p.length + j)
          ((AlpFrame.Write p).getD (5 + 2 * p.length + j) 0 ^^^ 2 ^ k)) =
        (if k < 4 then (9 + 2 * p.length, true, none)
         else (4 + 2 * p.length, true, none))) ∧
    (∀ m side v : Nat, m < p.length → side < 2 → (v < 48 ∨ 63 < v) →
      ¬(side = 0 ∧ v = ETX) →
      AlpFrame.Parse ((AlpFrame.Write p).set (4 + 2 * m + side) v) =
        (4 + 2 * m, true, none)) :=
  ⟨fun j k hj hk => parse_checksum_flip p hbytes j k hj hk,
   fun m side v hm hside hv hnetx =>
     parse_data_byte_corrupt p hbytes m hm side hside v hv hnetx⟩

/-- Witness for `corrupt_detection` on the one-byte payload `[1]`:
a low-bit flip of the first checksum byte, and replacement of the first
data nibble-byte by `0x20`. -/
theorem corrupt_detection_witness :
    AlpFrame.Parse ((AlpFrame.Write [1]).set (5 + 2 * 1 + 0)
        ((AlpFrame.Write [1]).getD (5 + 2 * 1 + 0) 0 ^^^ 2 ^ 0)) =
      (if (0 : Nat) < 4 then (9 + 2 * 1, true, none)
       else (4 + 2 * 1, true, none)) ∧
    AlpFrame.Parse ((AlpFrame.Write [1]).set (4 + 2 * 0 + 0) 32) =
      (4 + 2 * 0, true, none) :=
  ⟨(corrupt_detection [1] (by decide)).1 0 0 (by decide) (by decide),
   (corrupt_detection [1] (by decide)).2 0 0 32 (by decide) (by decide)
     (by decide) (by decide)⟩

/-- Counterexample to claim C3 as stated: flipping bit 7 of the first
checksum byte of the minimal frame returns `(4, true, none)`, the `ETX`
offset, not `(etx_offset + 5, true, none) = (9, true, none)`; and
replacing the first data nibble-byte of `Write [0x10, 0x00, 0x01]` with
the out-of-range value `ETX = 0x03` makes Parse accept a truncated
frame with `nack = false` rather than return `nack = true` with no
frame. -/
theorem corrupt_detection_counterexample :
    AlpFrame.Parse ((AlpFrame.Write []).set 5 (48 ^^^ 2 ^ 7)) = (4, true, none) ∧
    (4, true, (none : Option (List Nat))) ≠ (4 + 5, true, none) ∧
    AlpFrame.Parse ((AlpFrame.Write [16, 0, 1]).set 4 3) = (9, false, some []) :=
  ⟨by decide, by decide, by decide⟩

/-! ## Session claims -/

lemma parseFinish_first_zero (data : List Nat) (dlen start offset chksum chkpar : Nat)
    (acc : List Nat) (hoff : 0 < offset) :
    (parseFinish data dlen start offset chksum chkpar acc).1 = 0 →
    (parseFinish data dlen start offset chksum chkpar acc).2 = (false, none) := by
  unfold parseFinish
  split
  · intro _; rfl
  · split
    · intro h0; simp at h0; omega
    · intro h0; simp at h0; omega
    · split
      · intro h0; simp at h0
      · intro h0; simp at h0

lemma parse_zero_shape (data : List Nat) :
    (AlpFrame.Parse data).1 = 0 → AlpFrame.Parse data = (0, false, none) := by
  unfold AlpFrame.Parse
  dsimp only
  split
  · intro _; rfl
  next hlen =>
    push_neg at hlen
    split
    · intro h0
      dsimp only at h0
      exact absurd h0 (by omega)
    next start hfs =>
      have hsb := findStart_bound data _ 0 start hfs
      split
      next hstx =>
        intro h0
        dsimp only at h0
        exact absurd h0 (by omega)
      next hstx =>
        split
        next i hbad =>
          have hb := (parseWalk_bounds data (start + 4) (data.length / 2 * 2 - 2) 0 0 []).1 i hbad
          intro h0
          dsimp only at h0
          exact absurd h0 (by omega)
        next offset cs cp acc hbrk =>
          have hb := (parseWalk_bounds data (start + 4) (data.length / 2 * 2 - 2) 0 0 []).2
            offset cs cp acc hbrk
          intro h0
          have h2 := parseFinish_first_zero data data.length start offset cs cp acc
            (by omega) h0
          exact Prod.ext h0 h2
        next cs cp acc hexh =>
          intro h0
          have h2 := parseFinish_first_zero data data.length start (start + 4) cs cp
            (acc ++ List.replicate ((data.length - start - 4) / 2 - acc.length) 0)
            (by omega) h0
          exact Prod.ext h0 h2

lemma session_finish_rx (st : AlpPort) : st.session_finish.rx_buffer = st.rx_buffer := rfl

lemma transmit_control_char_rx (st : AlpPort) (now : Int) (c : Nat) :
    (st.transmit_control_char now c).rx_buffer = st.rx_buffer := by
  unfold AlpPort.transmit_control_char
  split <;> rfl

lemma re_transmit_rx (st : AlpPort) (now : Int) (ms : Nat) :
    (st.re_transmit now ms).rx_buffer = st.rx_buffer := by
  unfold AlpPort.re_transmit
  dsimp only
  split_ifs <;> rfl

lemma check_control_char_rx (st : AlpPort) (now : Int) (data : List Nat) :
    (st.check_control_char now data).2.rx_buffer = st.rx_buffer := by
  unfold AlpPort.check_control_char
  cases data.head? with
  | none => rfl
  | some c =>
      dsimp only
      split_ifs <;>
        simp [session_finish_rx, re_transmit_rx, AlpPort.send_eot, transmit_control_char_rx]

/-- Claim C4: a first byte equal to `ACK`, `NAK`, `EOT` or `ENQ` is
handled as a control event before frame parsing and the receive-loop
iteration consumes exactly one byte; `ACK` and `EOT` finish the session
(clearing the downlink slot and resetting the retransmit count), `NAK`
retransmits the downlink slot as a `NACKED` resend, and `ENQ` emits
`EOT` then finishes; concretely, an idle port receiving the single byte
`0x05` ends `FINISHED` with `EOT` (0x04) written to the port. -/
theorem control_bytes_handled_first :
    (∀ (st : AlpPort) (now : Int) (rest : List Nat),
      st.check_control_char now (ACK :: rest) = (true, st.session_finish) ∧
      st.check_control_char now (NAK :: rest) =
        (true, st.re_transmit now MESSAGE_STATE_NACKED) ∧
      st.check_control_char now (EOT :: rest) = (true, st.session_finish) ∧
      st.check_control_char now (ENQ :: rest) = (true, (st.send_eot now).session_finish)) ∧
    (∀ (st : AlpPort) (se : List Nat → Bool) (now : Int) (valid : Bool),
      (st.check_control_char now st.rx_buffer).1 = true →
      (st.rxStep se now st.rx_buffer valid).2.2.1 = 1 ∧
      (st.rxStep se now st.rx_buffer valid).2.1 = st.rx_buffer.drop 1 ∧
      (st.rxStep se now st.rx_buffer valid).2.2.2 = true) ∧
    (((AlpPort.init 0).on_receive (fun _ => false) 0 [ENQ]).session_state =
        SESSION_FINISHED ∧
     ((AlpPort.init 0).on_receive (fun _ => false) 0 [ENQ]).written = [[EOT]]) := by
  refine ⟨fun st now rest => ⟨rfl, rfl, rfl, rfl⟩, ?_, by decide, by decide⟩
  intro st se now valid hcc
  unfold AlpPort.rxStep
  dsimp only
  rw [hcc]
  simp only [if_true, frameFalsy]
  have hrx : (st.check_control_char now st.rx_buffer).2.rx_buffer = st.rx_buffer :=
    check_control_char_rx st now st.rx_buffer
  simp [AlpPort.consume_rx_buffer, hrx]

/-- Witness for `control_bytes_handled_first`: the one-byte-consumption
part at a port whose receive buffer starts with `ACK`. -/
theorem control_bytes_handled_first_witness :
    (({ AlpPort.init 0 with rx_buffer := [ACK, 7] }).rxStep (fun _ => false) 0
        ({ AlpPort.init 0 with rx_buffer := [ACK, 7] } : AlpPort).rx_buffer false).2.2.1 = 1 ∧
    (({ AlpPort.init 0 with rx_buffer := [ACK, 7] }).rxStep (fun _ => false) 0
        ({ AlpPort.init 0 with rx_buffer := [ACK, 7] } : AlpPort).rx_buffer false).2.1 =
      ({ AlpPort.init 0 with rx_buffer := [ACK, 7] } : AlpPort).rx_buffer.drop 1 ∧
    (({ AlpPort.init 0 with rx_buffer := [ACK, 7] }).rxStep (fun _ => false) 0
        ({ AlpPort.init 0 with rx_buffer := [ACK, 7] } : AlpPort).rx_buffer false).2.2.2 = true :=
  control_bytes_handled_first.2.1 { AlpPort.init 0 with rx_buffer := [ACK, 7] }
    (fun _ => false) 0 false (by decide)

/-- Claim C5: when at least one valid message or control-byte event was
seen while processing a chunk, the epilogue of `on_receive` stamps
`latest_uplink_event_time`; an active `linefault` is removed and
exactly one fault-over notification is emitted for the clear; the
one-shot initial-liveness fault-over fires on the first valid uplink
even without a `linefault` and never again afterwards unless a
`linefault` is being cleared; without a valid event nothing changes. -/
theorem linefault_clear_one_notification :
    (∀ (st : AlpPort) (now : Int), st.uplinkEpilogue now false = st) ∧
    (∀ (st : AlpPort) (now : Int), "linefault" ∈ st.active_faults →
      st.uplinkEpilogue now true =
        { st with latest_uplink_event_time := now,
                  active_faults := st.active_faults.erase "linefault",
                  line_fault_over_msg_sent := true,
                  faults_over := st.faults_over ++ ["linefault over"] }) ∧
    (∀ (st : AlpPort) (now : Int), "linefault" ∉ st.active_faults →
      st.line_fault_over_msg_sent = false →
      st.uplinkEpilogue now true =
        { st with latest_uplink_event_time := now,
                  line_fault_over_msg_sent := true,
                  faults_over := st.faults_over ++ ["linefault over"] }) ∧
    (∀ (st : AlpPort) (now : Int), "linefault" ∉ st.active_faults →
      st.line_fault_over_msg_sent = true →
      st.uplinkEpilogue now true = { st with latest_uplink_event_time := now }) := by
  refine ⟨fun st now => rfl, ?_, ?_, ?_⟩
  · intro st now hmem
    rcases Bool.eq_false_or_eq_true st.line_fault_over_msg_sent with hsent | hsent
    · simp [AlpPort.uplinkEpilogue, AlpPort.send_fault_over, hmem, hsent]
    · simp [AlpPort.uplinkEpilogue, AlpPort.send_fault_over, hmem, hsent]
  · intro st now hmem hsent
    simp [AlpPort.uplinkEpilogue, AlpPort.send_fault_over, hmem, hsent]
  · intro st now hmem hsent
    simp [AlpPort.uplinkEpilogue, AlpPort.send_fault_over, hmem, hsent]

/-- Witness for `linefault_clear_one_notification` at a port with an
active `linefault`. -/
theorem linefault_clear_one_notification_witness :
    ({ AlpPort.init 0 with active_faults := ["linefault"] } : AlpPort).uplinkEpilogue 3 true =
      { ({ AlpPort.init 0 with active_faults := ["linefault"] } : AlpPort) with
          latest_uplink_event_time := 3,
          active_faults :=
            (["linefault"] : List String).erase "linefault",
          line_fault_over_msg_sent := true,
          faults_over := [] ++ ["linefault over"] } :=
  linefault_clear_one_notification.2.1
    { AlpPort.init 0 with active_faults := ["linefault"] } 3 (by decide)

/-- Claim C6: in a receive-loop iteration whose Parse consumes nothing,
a buffer of at least `RX_BUFFER_MAX_LEN = 1024` bytes is cleared
entirely, a NAK control byte is written and the session is finished,
while a buffer below 1024 bytes is retained unchanged for the next
chunk. -/
theorem rx_buffer_overrun (st : AlpPort) (se : List Nat → Bool) (now : Int)
    (valid : Bool)
    (hcc : (st.check_control_char now st.rx_buffer).1 = false)
    (hp : (AlpFrame.Parse st.rx_buffer).1 = 0) :
    (RX_BUFFER_MAX_LEN ≤ st.rx_buffer.length →
      (st.rxStep se now st.rx_buffer valid).1 =
        (st.clear_rx_buffer.send_nak now).session_finish ∧
      (st.rxStep se now st.rx_buffer valid).1.rx_buffer = [] ∧
      (st.rxStep se now st.rx_buffer valid).1.session_state = SESSION_FINISHED ∧
      (st.rxStep se now st.rx_buffer valid).1.written = st.written ++ [[NAK]]) ∧
    (st.rx_buffer.length < RX_BUFFER_MAX_LEN →
      (st.rxStep se now st.rx_buffer valid).1 = st ∧
      (st.rxStep se now st.rx_buffer valid).2.2.1 = 0) := by
  have hP := parse_zero_shape st.rx_buffer hp
  have hs := check_control_char_false st now st.rx_buffer hcc
  unfold AlpPort.rxStep
  dsimp only
  rw [hcc, hs, hP]
  simp only [Bool.false_eq_true, if_false, frameFalsy, ne_eq, not_true_eq_false, if_true]
  constructor
  · intro hlen
    rw [if_pos (show True ∧ RX_BUFFER_MAX_LEN ≤ st.rx_buffer.length from ⟨trivial, hlen⟩)]
    refine ⟨rfl, ?_, ?_, ?_⟩
    · show (st.clear_rx_buffer.send_nak now).session_finish.rx_buffer = []
      rw [session_finish_rx, AlpPort.send_nak, transmit_control_char_rx]
      rfl
    · rfl
    · show (st.clear_rx_buffer.send_nak now).session_finish.written = st.written ++ [[NAK]]
      rw [session_finish_written, AlpPort.send_nak, transmit_control_char_written]
      rfl
  · intro hlen
    rw [if_neg (show ¬(True ∧ RX_BUFFER_MAX_LEN ≤ st.rx_buffer.length) from
      fun h => absurd h.2 (by omega))]
    exact ⟨rfl, rfl⟩

/-- Witness for `rx_buffer_overrun` at a six-byte partial frame: the
buffer is retained. -/
theorem rx_buffer_overrun_witness :
    (({ AlpPort.init 0 with rx_buffer := [1, 65, 50, 2, 48, 48] } : AlpPort).rxStep
        (fun _ => false) 0
        ({ AlpPort.init 0 with rx_buffer := [1, 65, 50, 2, 48, 48] } : AlpPort).rx_buffer
        false).1 =
      { AlpPort.init 0 with rx_buffer := [1, 65, 50, 2, 48, 48] } ∧
    (({ AlpPort.init 0 with rx_buffer := [1, 65, 50, 2, 48, 48] } : AlpPort).rxStep
        (fun _ => false) 0
        ({ AlpPort.init 0 with rx_buffer := [1, 65, 50, 2, 48, 48] } : AlpPort).rx_buffer
        false).2.2.1 = 0 :=
  (rx_buffer_overrun { AlpPort.init 0 with rx_buffer := [1, 65, 50, 2, 48, 48] }
    (fun _ => false) 0 false (by decide) (by decide)).2 (by decide)

/-- Spec §8 scenario 7: a fresh port transmits the empty payload at
time 0, then the diagnostic fires every 5 s with no reply ever
received; `retransScenario k` is the state after `k` ticks. -/
def retransScenario (k : Nat) : AlpPort :=
  ((AlpPort.init 0).transmit 0 []).runTicks 0 k

/-- Single diagnostic tick during an active session with downlink
silence of at least 4.5 s and the retransmit count below the
`NO_REPLY` limit: the downlink slot is rewritten once, the count
increments by one and the downlink timestamp moves to `now`; nothing
else changes. -/
lemma diag_tick_retransmits (st : AlpPort) (now : Int)
    (hact : st.session_is_active = true)
    (hcount : st.downlink_retransmit_count < RESEND_LIMIT)
    (htime : (4500 : Int) ≤ now - st.latest_downlink_event_time) :
    st.session_diagnostics now =
      { st with downlink_retransmit_count := st.downlink_retransmit_count + 1,
                latest_downlink_event_time := now,
                written := st.written ++ [st.downlink_buffer] } := by
  unfold AlpPort.session_diagnostics
  rw [if_pos hact, if_pos htime]
  unfold AlpPort.re_transmit
  dsimp only
  rw [if_neg (by decide : ¬ MESSAGE_STATE_NO_REPLY = MESSAGE_STATE_NACKED)]
  rw [if_pos hcount]
  rfl

/-- Claim C2, amended: in the no-reply scenario each of the first ten
5-second diagnostic ticks rewrites the downlink frame once and raises
the retransmit count by one, the session staying `ACTIVE_MASTER`; the
retransmit count reaches `RESEND_LIMIT = 10` after ten ticks and the
eleventh tick — the `re_transmit` call finding the count equal to the
limit — finishes the session, adds `linefault` to the active faults and
emits exactly one fault-detected notification. -/
theorem retransmit_bound :
    (∀ (st : AlpPort) (now : Int),
      st.session_is_active = true →
      st.downlink_retransmit_count < RESEND_LIMIT →
      (4500 : Int) ≤ now - st.latest_downlink_event_time →
      st.session_diagnostics now =
        { st with downlink_retransmit_count := st.downlink_retransmit_count + 1,
                  latest_downlink_event_time := now,
                  written := st.written ++ [st.downlink_buffer] }) ∧
    (∀ k : Nat, k < 10 →
      (retransScenario (k + 1)).downlink_retransmit_count = k + 1 ∧
      (retransScenario (k + 1)).written.length = k + 2 ∧
      (retransScenario (k + 1)).written.getD (k + 1) [] = AlpFrame.Write [] ∧
      (retransScenario (k + 1)).session_state = SESSION_ACTIVE_MASTER) ∧
    ((retransScenario 11).session_state = SESSION_FINISHED ∧
     "linefault" ∈ (retransScenario 11).active_faults ∧
     (retransScenario 11).faults_detected = ["linefault"]) := by
  refine ⟨diag_tick_retransmits, by decide, by decide, by decide, by decide⟩

/-- Witness for `retransmit_bound`: the first tick of the concrete
scenario, 5 s after the transmit. -/
theorem retransmit_bound_witness :
    ((AlpPort.init 0).transmit 0 []).session_diagnostics 5000 =
      { (AlpPort.init 0).transmit 0 [] with
          downlink_retransmit_count :=
            ((AlpPort.init 0).transmit 0 []).downlink_retransmit_count + 1,
          latest_downlink_event_time := 5000,
          written := ((AlpPort.init 0).transmit 0 []).written ++
            [((AlpPort.init 0).transmit 0 []).downlink_buffer] } :=
  retransmit_bound.1 ((AlpPort.init 0).transmit 0 []) 5000 (by decide) (by decide)
    (by decide)

/-- Counterexample to claim C2 as stated: after ten timer-driven
retransmissions the session is still `ACTIVE_MASTER` with retransmit
count 10, no `linefault` and no fault notification — it takes the
eleventh diagnostic call to finish and raise the fault. -/
theorem retransmit_bound_counterexample :
    (retransScenario 10).downlink_retransmit_count = 10 ∧
    (retransScenario 10).session_state = SESSION_ACTIVE_MASTER ∧
    (retransScenario 10).session_state ≠ SESSION_FINISHED ∧
    (retransScenario 10).active_faults = [] ∧
    (retransScenario 10).faults_detected = [] := by
  refine ⟨by decide, by decide, by decide, by decide, by decide⟩

/-- Claim C7, amended: after the limit-hitting `re_transmit` call the
session is `FINISHED` with the retransmit count reset to 0 and the
downlink slot cleared, so a subsequent `re_transmit` call is not a
no-op: it increments the retransmit count to 1, stamps the downlink
time and performs a (zero-byte) write of the cleared slot, while
leaving session state and active faults unchanged. -/
theorem retransmit_after_finish_not_noop (st : AlpPort) (now : Int) (ms : Nat)
    (hcount : st.downlink_retransmit_count = 0) :
    st.re_transmit now ms =
      { st with downlink_retransmit_count := 1,
                latest_downlink_event_time := now,
                written := st.written ++ [st.downlink_buffer] } := by
  unfold AlpPort.re_transmit
  dsimp only
  rw [if_pos (by rw [hcount]; split <;> decide)]
  rw [hcount]
  rfl

/-- Witness for `retransmit_after_finish_not_noop` at the state reached
right after the limit-hitting call of the retransmit scenario. -/
theorem retransmit_after_finish_not_noop_witness :
    (retransScenario 11).re_transmit 60 MESSAGE_STATE_NO_REPLY =
      { retransScenario 11 with
          downlink_retransmit_count := 1,
          latest_downlink_event_time := 60,
          written := (retransScenario 11).written ++
            [(retransScenario 11).downlink_buffer] } :=
  retransmit_after_finish_not_noop (retransScenario 11) 60 MESSAGE_STATE_NO_REPLY
    (by decide)

/-- Counterexample to claim C7 as stated: in the scenario state after
the limit-hitting call (session `FINISHED`, `linefault` raised), a
further `re_transmit` call changes the retransmit count from 0 to 1 and
performs one more port write — it is not a no-op. -/
theorem retransmit_after_finish_not_noop_counterexample :
    (retransScenario 11).session_state = SESSION_FINISHED ∧
    "linefault" ∈ (retransScenario 11).active_faults ∧
    (retransScenario 11).downlink_retransmit_count = 0 ∧
    ((retransScenario 11).re_transmit 60 MESSAGE_STATE_NO_REPLY).downlink_retransmit_count
      = 1 ∧
    ((retransScenario 11).re_transmit 60 MESSAGE_STATE_NO_REPLY).written.length =
      (retransScenario 11).written.length + 1 := by
  refine ⟨by decide, by decide, by decide, by decide, by decide⟩
